import Mathlib

/-!
Verification development for the ship-navigation route optimizer
(`core_optimizer_latlng.py` and `core_optimizer.py`).

The Python code is embedded shallowly over exact rationals:

* Geographic points are `ℚ × ℚ` (latitude, longitude in decimal degrees);
  pixel points are `ℚ × ℚ` pixel coordinates.
* Times (Python `datetime` / float minutes) are rationals measured in minutes.
* The two transcendental distance functions — `haversine_distance`
  (sin/cos/asin/sqrt) in the lat/lng module and the Euclidean pixel norm
  (`np.sqrt`) in the pixel module — are not rational-valued, so every
  definition that calls them takes the distance function as an explicit
  parameter (`dist`, resp. `segLen`).  Theorems that depend on properties of
  the real distance (non-negativity) take them as hypotheses; the pixel
  module's comparison `sqrt(dx²+dy²) < safety` is embedded as the equivalent
  squared comparison `dx²+dy² < safety²` (both sides non-negative).
* The shapely-backed geometric predicates of `ObstaclePolygon`
  (buffered containment, raw containment, segment intersection) are fields of
  a structure, i.e. the obstacle is modelled by its observable Boolean
  behaviour; concrete instances used in witnesses are exact rational
  rectangle tests.
-/

set_option maxHeartbeats 1000000

/-- A point: a pair of rationals.  In the lat/lng module this is
(latitude, longitude) in decimal degrees; in the pixel module it is an
(x, y) pixel position. -/
abbrev Pt : Type := ℚ × ℚ

/-- Python `int()` applied to a float: truncation toward zero. -/
def pyInt (q : ℚ) : ℤ := if 0 ≤ q then ⌊q⌋ else -⌊-q⌋

namespace NavL

/-- Constant `DEFAULT_SHIP_SPEED = 10.0` (knots) from core_optimizer_latlng.py. -/
def DEFAULT_SHIP_SPEED : ℚ := 10

/-- Constant `COLLISION_RADIUS_NM = 0.5` from core_optimizer_latlng.py. -/
def COLLISION_RADIUS_NM : ℚ := 1/2

/-- Constant `GRID_RESOLUTION = 0.0002` (degrees) from core_optimizer_latlng.py. -/
def GRID_RESOLUTION : ℚ := 2/10000

/-- Function `interpolate_position` from core_optimizer_latlng.py: linear
interpolation in lat/lng space, `fraction = 0` gives point 1. -/
def interpolate_position (lat1 lng1 lat2 lng2 fraction : ℚ) : Pt :=
  (lat1 + (lat2 - lat1) * fraction, lng1 + (lng2 - lng1) * fraction)

/-- Dataclass `ShipRoute` from core_optimizer_latlng.py.  `departure_time` is
in minutes (the numeric branch of the Python code; the `datetime` branch
differs only by an offset from the wall clock).  `timestamps = none` models
the Python field value `None`.  The cosmetic `color` field is omitted. -/
structure ShipRoute where
  name : String
  ship_id : String
  start : Pt
  goal : Pt
  path : List Pt
  departure_time : ℚ
  speed_knots : ℚ
  path_length_nm : ℚ
  timestamps : Option (List ℚ)

/-- Timestamp accumulation loop of `ShipRoute.calculate_timestamps`:
successive waypoint times, starting at `t0`, each segment adding
`distance / speed` hours, i.e. `60 * (distance / speed)` minutes.
`speed` is the already-defaulted positive speed. -/
def timestampsFrom (dist : Pt → Pt → ℚ) (speed : ℚ) (t0 : ℚ) : List Pt → List ℚ
  | [] => []
  | [_] => [t0]
  | p :: q :: rest => t0 :: timestampsFrom dist speed (t0 + 60 * (dist p q / speed)) (q :: rest)

/-- Path-length accumulation of `ShipRoute.calculate_timestamps`: the sum of
`dist` over consecutive waypoints. -/
def pathLength (dist : Pt → Pt → ℚ) : List Pt → ℚ
  | [] => 0
  | [_] => 0
  | p :: q :: rest => dist p q + pathLength dist (q :: rest)

/-- Method `ShipRoute.calculate_timestamps` from core_optimizer_latlng.py, as a
functional update: on an empty path it returns the route unchanged (the Python
method returns early); otherwise it sets `timestamps` and `path_length_nm`.
The Python code recomputes `speed = speed_knots if speed_knots > 0 else 10.0`
inside the loop; the value is loop-invariant, so it is computed once here. -/
def calculate_timestamps (dist : Pt → Pt → ℚ) (r : ShipRoute) : ShipRoute :=
  if r.path = [] then r
  else
    let speed := if 0 < r.speed_knots then r.speed_knots else 10
    { r with timestamps := some (timestampsFrom dist speed r.departure_time r.path),
             path_length_nm := pathLength dist r.path }

/-- Segment-search loop of `ShipRoute.get_position_at_time`: walk the aligned
waypoint/timestamp lists looking for the bracketing pair
`timestamps[i] <= query < timestamps[i+1]`; on a zero-duration segment the
Python code returns `path[i]`. -/
def findSeg (path : List Pt) (ts : List ℚ) (q : ℚ) : Option Pt :=
  match path, ts with
  | p1 :: p2 :: ps, t1 :: t2 :: tss =>
    if t1 ≤ q ∧ q < t2 then
      if t2 - t1 = 0 then some p1
      else some (interpolate_position p1.1 p1.2 p2.1 p2.2 ((q - t1) / (t2 - t1)))
    else findSeg (p2 :: ps) (t2 :: tss) q
  | _, _ => none

/-- Method `ShipRoute.get_position_at_time` from core_optimizer_latlng.py.
The guard `if not self.timestamps or query_time < self.departure_time` covers
both `None` and the empty list.  `path[-1]` is modelled with a default for the
empty-path case (in Python that case raises; it is unreachable whenever the
timestamps were derived from the path). -/
def get_position_at_time (r : ShipRoute) (query_time : ℚ) : Option Pt :=
  match r.timestamps with
  | none => none
  | some [] => none
  | some (t0 :: trest) =>
    if query_time < r.departure_time then none
    else if (t0 :: trest).getLastD 0 ≤ query_time then some (r.path.getLastD (0, 0))
    else
      match findSeg r.path (t0 :: trest) query_time with
      | some p => some p
      | none => some (r.path.getLastD (0, 0))
def unitDist : Pt → Pt → ℚ := fun _ _ => 1

/-- Concrete route with zero speed used as the C4 witness input. -/
def c4Route : ShipRoute :=
  ⟨"w", "w1", (0, 0), (0, 1), [(0, 0), (0, 1), (1, 1)], 5, 0, 0, none⟩
def c6Route : ShipRoute :=
  ⟨"w6", "w6a", (0, 0), (0, 2), [(0, 0), (0, 2)], 0, 10, 0, none⟩

/-- Shapely-backed obstacle: class `ObstaclePolygon` from
core_optimizer_latlng.py, modelled by its observable Boolean predicates.
`contains_point` is containment in the buffered polygon, `raw_contains` is
containment in the raw polygon (`self.polygon.contains`, the ignore-buffer
check), `intersects_line` is intersection of a segment with the buffered
polygon.  The shapely geometry is an external library; the concrete instances
used in witnesses below are exact rational rectangle tests. -/
structure ObstaclePolygon where
  contains_point : ℚ → ℚ → Bool
  raw_contains : ℚ → ℚ → Bool
  intersects_line : ℚ → ℚ → ℚ → ℚ → Bool

/-- Class `CollisionChecker` from core_optimizer_latlng.py: the obstacles and
the committed routes added with `add_route`. -/
structure CollisionChecker where
  obstacles : List ObstaclePolygon
  existing_routes : List ShipRoute

/-- Method `CollisionChecker.is_position_safe`: false inside any obstacle
(raw polygon when `ignore_buffer`, buffered otherwise); when a check time is
given, also false within `COLLISION_RADIUS_NM` of a committed route's
position at that time. -/
def is_position_safe (dist : Pt → Pt → ℚ) (cc : CollisionChecker)
    (lat lng : ℚ) (check_time : Option ℚ) (ignore_buffer : Bool) : Bool :=
  (cc.obstacles.all fun ob =>
    !(if ignore_buffer then ob.raw_contains lat lng else ob.contains_point lat lng)) &&
  (match check_time with
   | none => true
   | some t => cc.existing_routes.all fun route =>
       match get_position_at_time route t with
       | some op => !(decide (dist (lat, lng) op < COLLISION_RADIUS_NM))
       | none => true)

/-- Method `CollisionChecker.is_path_safe`: the segment must avoid every
obstacle; when a start time and a travel time are supplied (a travel time of
`0.0` is falsy in Python, so it disables the sampling), the sampled points
along the segment must each be `is_position_safe` at the interpolated time. -/
def is_path_safe (dist : Pt → Pt → ℚ) (cc : CollisionChecker)
    (lat1 lng1 lat2 lng2 : ℚ) (start_time : Option ℚ) (travel_time_hours : Option ℚ) : Bool :=
  (cc.obstacles.all fun ob => !(ob.intersects_line lat1 lng1 lat2 lng2)) &&
  (match start_time, travel_time_hours with
   | some st, some th =>
     if th = 0 then true
     else
       let num_samples : ℕ := max 2 (pyInt (th * 4)).toNat
       (List.range num_samples).all fun i =>
         let fraction : ℚ := if 1 < num_samples then (i : ℚ) / ((num_samples : ℚ) - 1) else 0
         let cp := interpolate_position lat1 lng1 lat2 lng2 fraction
         is_position_safe dist cc cp.1 cp.2 (some (st + 60 * (th * fraction))) false
   | _, _ => true)

/-- Obstacle loop shared by `simplify_path` and
`find_direct_path_with_avoidance`: does the segment from `a` to `b` intersect
some obstacle's buffered polygon? -/
def segBlocked (obstacles : List ObstaclePolygon) (a b : Pt) : Bool :=
  obstacles.any fun ob => ob.intersects_line a.1 a.2 b.1 b.2

/-- Inner scan of `simplify_path`: the length of the maximal run of indices
`j, j+1, ...` (all `< p.length`) whose direct segments from `a` are
obstacle-free.  The Python loop `for j in range(i+2, len(path))` with greedy
`best_j` update and `break` yields `best_j = i + 1 + safeRun (i+2)`. -/
def safeRun (obstacles : List ObstaclePolygon) (p : List Pt) (a : Pt) (j : ℕ) : ℕ :=
  if h : j < p.length then
    if segBlocked obstacles a (p.get ⟨j, h⟩) then 0
    else 1 + safeRun obstacles p a (j + 1)
  else 0
termination_by p.length - j

/-- The greedy furthest directly-reachable index `best_j` of `simplify_path`. -/
def bestJ (obstacles : List ObstaclePolygon) (p : List Pt) (i : ℕ) : ℕ :=
  i + 1 + safeRun obstacles p (p.getD i (0, 0)) (i + 2)

/-- Main loop of `simplify_path`: starting from index `i`, append
`path[best_j]` and continue from there while `i < len(path) - 1`. -/
def simplifyAux (obstacles : List ObstaclePolygon) (p : List Pt) (i : ℕ) : List Pt :=
  if h : i < p.length - 1 then
    p.getD (bestJ obstacles p i) (0, 0) :: simplifyAux obstacles p (bestJ obstacles p i)
  else []
termination_by p.length - i
decreasing_by
  have hj : i < bestJ obstacles p i := by
    unfold bestJ
    omega
  omega

/-- Method `RouteOptimizer.simplify_path` from core_optimizer_latlng.py:
greedily skip intermediate waypoints whenever a direct segment further ahead
is obstacle-free, then make sure the goal is the last element. -/
def simplify_path (obstacles : List ObstaclePolygon) (path : List Pt) : List Pt :=
  if path.length ≤ 2 then path
  else
    let simplified := path.headD (0, 0) :: simplifyAux obstacles path 0
    match path.getLast? with
    | none => simplified
    | some g => if simplified.getLast? = some g then simplified else simplified ++ [g]

/-- The 16 perpendicular offsets probed by `find_direct_path_with_avoidance`
when an intermediate waypoint is blocked. -/
def perpendicular_offsets : List (ℚ × ℚ) :=
  [(5/10000, 0), (0, 5/10000), (-5/10000, 0), (0, -5/10000),
   (1/1000, 0), (0, 1/1000), (-1/1000, 0), (0, -1/1000),
   (1/1000, 1/1000), (1/1000, -1/1000), (-1/1000, 1/1000), (-1/1000, -1/1000),
   (2/1000, 0), (0, 2/1000), (-2/1000, 0), (0, -2/1000)]

/-- The 4 offsets probed when the segment to a safe waypoint is blocked. -/
def small_offsets : List (ℚ × ℚ) :=
  [(1/1000, 0), (0, 1/1000), (-1/1000, 0), (0, -1/1000)]

/-- Loop body of `find_direct_path_with_avoidance` for intermediate waypoint
index `i` (with `1 ≤ i < num`): append a waypoint, an offset alternative, or
skip the waypoint entirely. -/
def directStep (dist : Pt → Pt → ℚ) (cc : CollisionChecker) (startP goalP : Pt)
    (num : ℕ) (ws : List Pt) (i : ℕ) : List Pt :=
  let fraction : ℚ := (i : ℚ) / (num : ℚ)
  let wlat := startP.1 + (goalP.1 - startP.1) * fraction
  let wlng := startP.2 + (goalP.2 - startP.2) * fraction
  let lastp := ws.getLastD startP
  if !(is_position_safe dist cc wlat wlng none false) then
    match perpendicular_offsets.find? (fun o =>
        is_position_safe dist cc (wlat + o.1) (wlng + o.2) none false &&
        is_path_safe dist cc lastp.1 lastp.2 (wlat + o.1) (wlng + o.2) none none) with
    | some o => ws ++ [(wlat + o.1, wlng + o.2)]
    | none => ws
  else
    if !(segBlocked cc.obstacles lastp (wlat, wlng)) then ws ++ [(wlat, wlng)]
    else
      match small_offsets.find? (fun o =>
          is_position_safe dist cc (wlat + o.1) (wlng + o.2) none false &&
          !(segBlocked cc.obstacles lastp (wlat + o.1, wlng + o.2))) with
      | some o => ws ++ [(wlat + o.1, wlng + o.2)]
      | none => ws

/-- Method `RouteOptimizer.find_direct_path_with_avoidance` from
core_optimizer_latlng.py. -/
def find_direct_path_with_avoidance (dist : Pt → Pt → ℚ) (cc : CollisionChecker)
    (start_lat start_lng goal_lat goal_lng : ℚ) : List Pt :=
  let startP : Pt := (start_lat, start_lng)
  let goalP : Pt := (goal_lat, goal_lng)
  if !(segBlocked cc.obstacles startP goalP) then [startP, goalP]
  else
    let distance := dist startP goalP
    let num : ℕ := (min 10 (max 3 (pyInt (distance * 2)))).toNat
    let ws := ((List.range (num - 1)).map (· + 1)).foldl
      (directStep dist cc startP goalP num) [startP]
    simplify_path cc.obstacles (ws ++ [goalP])

/-- Search node of the lat/lng A* (class `Node`).  The Python `parent` field
is `None` or a node; the two cases are the two constructors. -/
inductive Node where
  | root (lat lng g hc : ℚ)
  | child (lat lng g hc : ℚ) (parent : Node)

def Node.lat : Node → ℚ
  | .root a _ _ _ => a
  | .child a _ _ _ _ => a

def Node.lng : Node → ℚ
  | .root _ b _ _ => b
  | .child _ b _ _ _ => b

def Node.g : Node → ℚ
  | .root _ _ g _ => g
  | .child _ _ g _ _ => g

def Node.hc : Node → ℚ
  | .root _ _ _ h => h
  | .child _ _ _ h _ => h

/-- Total cost `f = g + h`. -/
def Node.f (n : Node) : ℚ := n.g + n.hc

/-- Path reconstruction of `find_path_astar`: walk the parent chain, then
reverse, so the root comes first. -/
def Node.toPath : Node → List Pt
  | .root lat lng _ _ => [(lat, lng)]
  | .child lat lng _ _ parent => parent.toPath ++ [(lat, lng)]

/-- Python `Node.__eq__`: nodes are equal when within half a grid cell on
both coordinates. -/
def nodeClose (a b : Node) : Bool :=
  decide (|a.lat - b.lat| < GRID_RESOLUTION / 2) &&
  decide (|a.lng - b.lng| < GRID_RESOLUTION / 2)

/-- Python `Node.__hash__`: coordinates rounded to the grid.  Lean `round`
rounds halves up while Python rounds halves to even; no run below evaluates
at an exact half-grid multiple. -/
def nodeHash (n : Node) : ℚ × ℚ :=
  (((round (n.lat / GRID_RESOLUTION) : ℤ) : ℚ) * GRID_RESOLUTION,
   ((round (n.lng / GRID_RESOLUTION) : ℤ) : ℚ) * GRID_RESOLUTION)

/-- Membership in the Python `closed_set` (a hash set): found iff some stored
node shares the hash and compares `__eq__`-equal. -/
def inClosedSet (closed : List Node) (n : Node) : Bool :=
  closed.any fun m => decide (nodeHash m = nodeHash n) && nodeClose m n

/-- Pop of the `heapq` open set: remove a node of minimal `f` (the earliest
such; the heap's order among ties is irrelevant to the claims below). -/
def popMin : List Node → Option (Node × List Node)
  | [] => none
  | n :: rest =>
    match popMin rest with
    | none => some (n, [])
    | some (m, rest2) => if m.f < n.f then some (m, n :: rest2) else some (n, rest)

/-- Open-set insertion with the Python better-cost scan: replace the first
`__eq__`-equal node when the new cost is lower, else keep the set; push
(append) when no equal node exists. -/
def insertNeighbor : List Node → Node → List Node
  | [], nb => [nb]
  | m :: rest, nb =>
    if nodeClose m nb then (if nb.g < m.g then nb :: rest else m :: rest)
    else m :: insertNeighbor rest nb

/-- Method `RouteOptimizer.get_neighbors`: 8 compass directions with adaptive
step size, a bounding box around start and goal, and a point-safety check. -/
def get_neighbors (dist : Pt → Pt → ℚ) (cc : CollisionChecker)
    (startP goalP : Pt) (node : Node) : List Node :=
  let base_step := GRID_RESOLUTION
  let distance_to_goal := dist (node.lat, node.lng) goalP
  let step := if 5 < distance_to_goal then base_step * 5
    else if 1 < distance_to_goal then base_step * 2
    else base_step
  let dirs : List (ℚ × ℚ) :=
    [(step, 0), (step, step), (0, step), (-step, step),
     (-step, 0), (-step, -step), (0, -step), (step, -step)]
  dirs.filterMap fun d =>
    let new_lat := node.lat + d.1
    let new_lng := node.lng + d.2
    let min_lat := min startP.1 goalP.1 - 5/100
    let max_lat := max startP.1 goalP.1 + 5/100
    let min_lng := min startP.2 goalP.2 - 5/100
    let max_lng := max startP.2 goalP.2 + 5/100
    if new_lat < min_lat ∨ max_lat < new_lat ∨ new_lng < min_lng ∨ max_lng < new_lng then none
    else if is_position_safe dist cc new_lat new_lng none false then
      some (Node.child new_lat new_lng
        (node.g + dist (node.lat, node.lng) (new_lat, new_lng))
        (dist (new_lat, new_lng) goalP) node)
    else none

/-- State of the A* loop. -/
structure AState where
  openSet : List Node
  closedSet : List Node
  best : Node
  bestDist : ℚ

/-- Result of the bounded A* loop: a goal path, or exhaustion with the best
(closest-to-goal) node found. -/
inductive AStarOutcome where
  | found (path : List Pt)
  | exhausted (best : Node) (bestDist : ℚ)

/-- The `while open_set and iteration < max_iterations` loop of
`find_path_astar`; `fuel` is the remaining iteration budget. -/
def astarLoop (dist : Pt → Pt → ℚ) (cc : CollisionChecker) (startP goalP : Pt) :
    ℕ → AState → AStarOutcome
  | 0, st => .exhausted st.best st.bestDist
  | fuel + 1, st =>
    match popMin st.openSet with
    | none => .exhausted st.best st.bestDist
    | some (current, rest) =>
      let cd := dist (current.lat, current.lng) goalP
      let best := if cd < st.bestDist then current else st.best
      let bestDist := if cd < st.bestDist then cd else st.bestDist
      let goal_tolerance := GRID_RESOLUTION * 2
      if |current.lat - goalP.1| < goal_tolerance ∧ |current.lng - goalP.2| < goal_tolerance then
        .found current.toPath
      else
        let closed := current :: st.closedSet
        let opens := (get_neighbors dist cc startP goalP current).foldl
          (fun o nb => if inClosedSet closed nb then o else insertNeighbor o nb) rest
        astarLoop dist cc startP goalP fuel ⟨opens, closed, best, bestDist⟩

/-- Post-processing of the A* loop outcome in `find_path_astar`: the
simplified goal path on success; on exhaustion the simplified best partial
path extended by the exact goal when within 1 NM, otherwise the direct
fallback. -/
def astarPost (dist : Pt → Pt → ℚ) (cc : CollisionChecker)
    (start_lat start_lng goal_lat goal_lng : ℚ) : AStarOutcome → List Pt
  | .found p => simplify_path cc.obstacles p
  | .exhausted best bestDist =>
    if bestDist < 1 then
      simplify_path cc.obstacles (best.toPath ++ [(goal_lat, goal_lng)])
    else find_direct_path_with_avoidance dist cc start_lat start_lng goal_lat goal_lng

/-- Method `RouteOptimizer.find_path_astar` (budget 10000 iterations).  Every
Python `return` statement of the method yields a list, so its `Optional`
annotation never actually produces `None`. -/
def find_path_astar (dist : Pt → Pt → ℚ) (cc : CollisionChecker)
    (start_lat start_lng goal_lat goal_lng : ℚ) : List Pt :=
  let startP : Pt := (start_lat, start_lng)
  let goalP : Pt := (goal_lat, goal_lng)
  let d0 := dist startP goalP
  let startNode := Node.root start_lat start_lng 0 d0
  astarPost dist cc start_lat start_lng goal_lat goal_lng
    (astarLoop dist cc startP goalP 10000 ⟨[startNode], [], startNode, d0⟩)

/-- Python `np.arange(start, stop, step)` for positive step. -/
def np_arange (start stop step : ℚ) : List ℚ :=
  (List.range (⌈(stop - start) / step⌉).toNat).map fun k => start + step * (k : ℚ)

/-- Segment loop of `PathAdjuster.find_safe_departure_time`: every segment of
the path, started at its own timestamp, must be `is_path_safe`. -/
def segments_safe (dist : Pt → Pt → ℚ) (cc : CollisionChecker)
    (path : List Pt) (speed : ℚ) (ts : List ℚ) : Bool :=
  (List.range (path.length - 1)).all fun i =>
    let p1 := path.getD i (0, 0)
    let p2 := path.getD (i + 1) (0, 0)
    let travel := dist p1 p2 / speed
    is_path_safe dist cc p1.1 p1.2 p2.1 p2.2 (some (ts.getD i 0)) (some travel)

/-- Method `PathAdjuster.find_safe_departure_time`: try the preferred time,
then delays of 0.5h, 1h, ... up to `max_delay_hours`, each first later then
earlier, returning the first safe time. -/
def find_safe_departure_time (dist : Pt → Pt → ℚ) (cc : CollisionChecker)
    (path : List Pt) (preferred_time speed max_delay_hours : ℚ) : Option ℚ :=
  let check := fun (t : ℚ) =>
    let test_route := calculate_timestamps dist
      ⟨"test", "test", path.headD (0, 0), path.getLastD (0, 0), path, t, speed, 0, none⟩
    segments_safe dist cc path speed (test_route.timestamps.getD [])
  if check preferred_time then some preferred_time
  else
    (((np_arange (1/2) max_delay_hours (1/2)).map fun d =>
        [preferred_time + 60 * d, preferred_time - 60 * d]).flatten).find? check

/-- Return dictionary of `RouteOptimizer.optimize_route`.  The failure branch
sets only `success` and `message`; every other key is `None`. -/
structure OptimizeResult where
  success : Bool
  message : String
  waypoints : Option (List Pt)
  result_departure : Option ℚ
  arrival_time : Option ℚ
  distance : Option ℚ
  travel_time : Option ℚ
  time_adjusted : Option Bool

/-- Method `RouteOptimizer.optimize_route` from core_optimizer_latlng.py. -/
def optimize_route (dist : Pt → Pt → ℚ) (cc : CollisionChecker)
    (start_lat start_lng goal_lat goal_lng departure_time speed : ℚ)
    (allow_time_adjustment : Bool) : OptimizeResult :=
  let waypoints := find_path_astar dist cc start_lat start_lng goal_lat goal_lng
  if waypoints = [] then
    ⟨false, "No valid path found", none, none, none, none, none, none⟩
  else
    let final_departure := if allow_time_adjustment then
        match find_safe_departure_time dist cc waypoints departure_time speed 24 with
        | some t => t
        | none => departure_time
      else departure_time
    let route := calculate_timestamps dist
      ⟨"optimized", "ship", waypoints.headD (0, 0), waypoints.getLastD (0, 0),
        waypoints, final_departure, speed, 0, none⟩
    let arrival := match route.timestamps with
      | some ts => ts.getLast?
      | none => none
    ⟨true, "Route optimized successfully", some waypoints, some final_departure, arrival,
      some route.path_length_nm,
      some (if 0 < speed then route.path_length_nm / speed else 0),
      some (decide (final_departure ≠ departure_time))⟩

/-- Count of `range(0, int(duration), 10)` in `optimize_departure_time`. -/
def tickCount (duration : ℚ) : ℕ := ((pyInt duration + 9) / 10).toNat

/-- The check times for one candidate offset: the window ends plus every 10
minutes from the start. -/
def check_times_for (test_start test_end : ℚ) : List ℚ :=
  [test_start, test_end] ++
    (List.range (tickCount (test_end - test_start))).map fun k => test_start + 10 * (k : ℚ)

/-- One sampled check time of the conflict scan of `optimize_departure_time`:
count a conflict when the sampled distance is below the 0.5 NM safety
distance, and track the minimum sampled distance (`float('inf')` is the top
element of `WithTop ℚ`). -/
def conflictTimeStep (dist : Pt → Pt → ℚ) (test_ship ex : ShipRoute)
    (acc2 : ℕ × WithTop ℚ) (ct : ℚ) : ℕ × WithTop ℚ :=
  match get_position_at_time test_ship ct, get_position_at_time ex ct with
  | some tp, some ep =>
    let d := dist tp ep
    (if d < 1/2 then acc2.1 + 1 else acc2.1, min acc2.2 (d : WithTop ℚ))
  | _, _ => acc2

/-- One committed route of the conflict scan of `optimize_departure_time`:
skipped when it has no timestamps or when the time windows do not overlap.
A test ship without timestamps (only possible for an empty path, where the
Python code would raise) contributes nothing. -/
def conflictShipStep (dist : Pt → Pt → ℚ) (test_ship : ShipRoute)
    (acc : ℕ × WithTop ℚ) (ex : ShipRoute) : ℕ × WithTop ℚ :=
  match ex.timestamps with
  | none => acc
  | some [] => acc
  | some (e0 :: erest) =>
    match test_ship.timestamps with
    | none => acc
    | some [] => acc
    | some (t0 :: trest) =>
      let test_end := (t0 :: trest).getLastD 0
      let exist_end := (e0 :: erest).getLastD 0
      if test_end < e0 ∨ exist_end < t0 then acc
      else (check_times_for t0 test_end).foldl (conflictTimeStep dist test_ship ex) acc

/-- Conflict count and minimum sampled distance of one candidate departure. -/
def offsetConflicts (dist : Pt → Pt → ℚ) (test_ship : ShipRoute)
    (existing_ships : List ShipRoute) : ℕ × WithTop ℚ :=
  existing_ships.foldl (conflictShipStep dist test_ship) (0, ⊤)

/-- Candidate-selection step of `optimize_departure_time`: the state is
(best_time, min_conflicts, best_min_distance); a candidate wins with strictly
fewer conflicts, or equal conflicts and a strictly larger minimum distance. -/
def selectStep (dist : Pt → Pt → ℚ) (new_ship : ShipRoute)
    (existing_ships : List ShipRoute)
    (st : ℚ × WithTop ℕ × WithTop ℚ) (k : ℤ) : ℚ × WithTop ℕ × WithTop ℚ :=
  let test_ship := calculate_timestamps dist
    { new_ship with
      departure_time := new_ship.departure_time + (k : ℚ)
      path_length_nm := 0
      timestamps := none }
  let res := offsetConflicts dist test_ship existing_ships
  if (res.1 : WithTop ℕ) < st.2.1 ∨ ((res.1 : WithTop ℕ) = st.2.1 ∧ st.2.2 < res.2) then
    (new_ship.departure_time + (k : ℚ), (res.1 : WithTop ℕ), res.2)
  else st

/-- Method `RouteOptimizer.optimize_departure_time` (numeric-departure branch:
`departure_time` is minutes from now, so `base_departure_minutes` equals it;
the `datetime` branch additionally clamps at the wall clock).  Searches
offsets +3..+min(10, window) minutes in 1-minute steps, starting from the
state (requested time, inf conflicts, 0). -/
def optimize_departure_time (dist : Pt → Pt → ℚ) (new_ship : ShipRoute)
    (existing_ships : List ShipRoute) (time_window_minutes : ℤ) : ℚ :=
  let max_offset : ℤ := min 10 time_window_minutes
  let offsets : List ℤ := (List.range (max_offset - 3 + 1).toNat).map fun (k : ℕ) => 3 + (k : ℤ)
  (offsets.foldl (selectStep dist new_ship existing_ships)
    ((new_ship.departure_time, ⊤, 0) : ℚ × WithTop ℕ × WithTop ℚ)).1

/-- Liang–Barsky parameter clip of a segment coordinate against one slab. -/
def segClip (p q lo hi : ℚ) : Option (ℚ × ℚ) :=
  if q - p = 0 then (if lo ≤ p ∧ p ≤ hi then some (0, 1) else none)
  else some (min ((lo - p) / (q - p)) ((hi - p) / (q - p)),
             max ((lo - p) / (q - p)) ((hi - p) / (q - p)))

/-- Exact test: does the closed segment from `a` to `b` meet the closed
axis-aligned rectangle with corners `lo` and `hi`? -/
def segMeetsRect (lo hi a b : Pt) : Bool :=
  match segClip a.1 b.1 lo.1 hi.1, segClip a.2 b.2 lo.2 hi.2 with
  | some (l1, h1), some (l2, h2) => decide (max 0 (max l1 l2) ≤ min 1 (min h1 h2))
  | _, _ => false

/-- Idealised rectangular obstacle instance: containment is the open
rectangle, segment intersection the closed rectangle.  At every point and
segment queried in the runs below these answers coincide with a real shapely
`ObstaclePolygon` whose buffered polygon covers this rectangle. -/
def rectObstacle (lo hi : Pt) : ObstaclePolygon :=
  ⟨fun lat lng => decide (lo.1 < lat ∧ lat < hi.1 ∧ lo.2 < lng ∧ lng < hi.2),
   fun lat lng => decide (lo.1 < lat ∧ lat < hi.1 ∧ lo.2 < lng ∧ lng < hi.2),
   fun lat1 lng1 lat2 lng2 => segMeetsRect lo hi (lat1, lng1) (lat2, lng2)⟩

/-- Scaled coordinate-difference distance oracle `60·(Δlat + Δlng)` NM:
matches the scale of `haversine_distance` near the equator (about 60 NM per
degree) on the positively-directed segments of the C1 run, and is exact
enough for every branch decision exercised there. -/
def cexDist : Pt → Pt → ℚ := fun p q => 60 * ((q.1 - p.1) + (q.2 - p.2))

/-- C1 counterexample obstacle: a small square around the start point; the
start lies inside it and all A* neighbor steps from the start are inside. -/
def cexObstacle : ObstaclePolygon := rectObstacle (-2/1000, -2/1000) (2/1000, 2/1000)

/-- C1 counterexample checker: that one obstacle and no committed routes. -/
def cexCC : CollisionChecker := ⟨[cexObstacle], []⟩

/-- An obstacle far away from the C1-amended witness path. -/
def w1Obstacle : ObstaclePolygon := rectObstacle (50, 50) (60, 60)

/-- Route and committed route for the C2 witness. -/
def c2Route : ShipRoute :=
  ⟨"c2", "c2a", (0, 0), (0, 1), [(0, 0), (0, 1)], 100, 10, 0, none⟩

def c2Existing : ShipRoute :=
  ⟨"c2e", "c2eb", (5, 5), (5, 6), [(5, 5), (5, 6)], 0, 10, 0, some [0, 6]⟩

/-- Route for the C9 witness. -/
def c9Route : ShipRoute :=
  ⟨"c9", "c9a", (0, 0), (0, 1), [(0, 0), (0, 1)], 30, 10, 0, none⟩

end NavL

namespace NavP

/-- Constant `PIXEL_TO_NM = PIXEL_TO_METERS * METERS_TO_NAUTICAL_MILES` from
core_optimizer.py: `10 * (1/1852)`. -/
def PIXEL_TO_NM : ℚ := 10 / 1852

/-- Dataclass `ShipRoute` from core_optimizer.py (pixel coordinates, float
minutes).  `timestamps = []` models both the Python `None` default and the
empty list: both are falsy in every guard that reads the field.  The cosmetic
`color` and derived `path_length_nm` fields are omitted. -/
structure ShipRoute where
  name : String
  ship_id : String
  start : Pt
  goal : Pt
  path : List Pt
  departure_time : ℚ
  speed_knots : ℚ
  path_length_pixels : ℚ
  timestamps : List ℚ

/-- Property `ShipRoute.speed_pixels_per_minute`. -/
def ShipRoute.speed_pixels_per_minute (r : ShipRoute) : ℚ :=
  (r.speed_knots / 60) / PIXEL_TO_NM

/-- Timestamp loop of the pixel `ShipRoute.calculate_timestamps`; `segLen`
abstracts the Euclidean pixel norm `np.sqrt(dx² + dy²)`. -/
def timestampsFromP (segLen : Pt → Pt → ℚ) (sppm t0 : ℚ) : List Pt → List ℚ
  | [] => []
  | [_] => [t0]
  | p :: q :: rest => t0 :: timestampsFromP segLen sppm (t0 + segLen p q / sppm) (q :: rest)

/-- Method `ShipRoute.calculate_timestamps` from core_optimizer.py (early
return on an empty path leaves the stored timestamps unchanged). -/
def calculate_timestamps (segLen : Pt → Pt → ℚ) (r : ShipRoute) : ShipRoute :=
  if r.path = [] then r
  else { r with
    timestamps := timestampsFromP segLen r.speed_pixels_per_minute r.departure_time r.path }

/-- Segment search loop of the pixel `get_position_at_time` (this module has
no zero-duration guard; a bracketing pair always has positive duration). -/
def findSegP (path : List Pt) (ts : List ℚ) (t : ℚ) : Option Pt :=
  match path, ts with
  | p1 :: p2 :: ps, t1 :: t2 :: tss =>
    if t1 ≤ t ∧ t < t2 then
      let tr := (t - t1) / (t2 - t1)
      some (p1.1 + tr * (p2.1 - p1.1), p1.2 + tr * (p2.2 - p1.2))
    else findSegP (p2 :: ps) (t2 :: tss) t
  | _, _ => none

/-- Method `ShipRoute.get_position_at_time` from core_optimizer.py: `None`
before the first timestamp, pinned to the last waypoint at or after the last
timestamp, interpolated in between. -/
def get_position_at_time (r : ShipRoute) (t : ℚ) : Option Pt :=
  if r.path = [] ∨ r.timestamps = [] then none
  else if t < r.timestamps.headD 0 then none
  else if r.timestamps.getLastD 0 ≤ t then some (r.path.getLastD (0, 0))
  else
    match findSegP r.path r.timestamps t with
    | some p => some p
    | none => some (r.path.getLastD (0, 0))

/-- Squared Euclidean distance of two pixel points. -/
def dist2 (a b : Pt) : ℚ := (a.1 - b.1) ^ 2 + (a.2 - b.2) ^ 2

/-- Field `CollisionChecker.safety_distance_pixels`. -/
def safety_distance_pixels (safety_distance_nm : ℚ) : ℚ := safety_distance_nm / PIXEL_TO_NM

/-- Sampled times of `check_collision`: `t = start; while t <= end: t += step`
(defined for the overlap case `start < endT` with a positive step; outside
that domain the scan is empty — for a non-positive step the Python loop would
not terminate). -/
def sampleTimes (start endT step : ℚ) : List ℚ :=
  if endT ≤ start ∨ step ≤ 0 then []
  else (List.range ((⌊(endT - start) / step⌋).toNat + 1)).map fun k => start + step * (k : ℚ)

/-- One sample step of the `check_collision` scan; the state is
(intervals, in_collision, collision_start).  The float comparison
`sqrt(dx²+dy²) < safety_pixels` is embedded as the equivalent squared
comparison (both sides are non-negative). -/
def collisionStep (s1 s2 : ShipRoute) (sp : ℚ)
    (st : List (ℚ × ℚ) × Bool × ℚ) (t : ℚ) : List (ℚ × ℚ) × Bool × ℚ :=
  match get_position_at_time s1 t, get_position_at_time s2 t with
  | some p1, some p2 =>
    let is_col := decide (dist2 p1 p2 < sp ^ 2)
    if is_col && !st.2.1 then (st.1, true, t)
    else if !is_col && st.2.1 then (st.1 ++ [(st.2.2, t)], false, st.2.2)
    else st
  | _, _ => st

/-- Method `CollisionChecker.check_collision` from core_optimizer.py: merge
contiguous unsafe samples into `[start, end]` intervals. -/
def check_collision (safety_nm : ℚ) (s1 s2 : ShipRoute) (time_step : ℚ) : List (ℚ × ℚ) :=
  if s1.timestamps = [] ∨ s2.timestamps = [] then []
  else
    let start_time := max s1.departure_time s2.departure_time
    let end_time := min (s1.timestamps.getLastD 0) (s2.timestamps.getLastD 0)
    if end_time ≤ start_time then []
    else
      let sp := safety_distance_pixels safety_nm
      let final := (sampleTimes start_time end_time time_step).foldl
        (collisionStep s1 s2 sp) (([], false, 0) : List (ℚ × ℚ) × Bool × ℚ)
      if final.2.1 then final.1 ++ [(final.2.2, end_time)] else final.1

/-- Method `RouteOptimizer.calculate_path_length` from core_optimizer.py. -/
def calculate_path_length (segLen : Pt → Pt → ℚ) : List Pt → ℚ
  | [] => 0
  | [_] => 0
  | p :: q :: rest => segLen p q + calculate_path_length segLen (q :: rest)

/-- The in-place mutation `test_ship.path = alt; test_ship.calculate_timestamps()`
of `optimize_fixed_time`, as a functional update. -/
def reroute (segLen : Pt → Pt → ℚ) (test_ship : ShipRoute) (alt : List Pt) : ShipRoute :=
  calculate_timestamps segLen
    { test_ship with path := alt, path_length_pixels := calculate_path_length segLen alt }

/-- Head of `solutions.sort(key=first)`: for a stable sort this is the
earliest solution with the minimal key, computed by a fold that replaces only
on a strictly smaller key. -/
def pickMinFirst : List (ℚ × List Pt) → Option (ℚ × List Pt)
  | [] => none
  | x :: xs => some (xs.foldl (fun b c => if c.1 < b.1 then c else b) x)

/-- The avoidance factors `[0.6, 0.8, 1.0, 1.2, 1.5]` of `optimize_fixed_time`. -/
def avoidance_factors : List ℚ := [6/10, 8/10, 1, 12/10, 15/10]

/-- Collision-information step of `optimize_fixed_time`: append the timed
collision intervals against one committed route, tagged with its name. -/
def infoStep (safety_nm : ℚ) (test_ship : ShipRoute)
    (acc : List (String × ℚ × ℚ)) (o : ShipRoute) : List (String × ℚ × ℚ) :=
  acc ++ (check_collision safety_nm test_ship o (1/2)).map fun iv => (o.name, iv)

/-- Alternative-path attempt of `optimize_fixed_time` for one check time and
one avoidance factor: keep the alternative only if it differs from the
original, clears all collisions, and then record its detour in NM. -/
def solStep (segLen : Pt → Pt → ℚ) (safety_nm : ℚ) (findAlt : ℚ → ℚ → Option (List Pt))
    (original_path : List Pt) (test_ship : ShipRoute) (existing_ships : List ShipRoute)
    (ct : ℚ) (sols2 : List (ℚ × List Pt)) (factor : ℚ) : List (ℚ × List Pt) :=
  match findAlt ct ((1/2) * factor) with
  | none => sols2
  | some alt =>
    if alt = original_path then sols2
    else
      let test2 := reroute segLen test_ship alt
      if existing_ships.any (fun o => !(check_collision safety_nm test2 o (1/2)).isEmpty)
      then sols2
      else sols2 ++ [((calculate_path_length segLen alt -
        calculate_path_length segLen original_path) * PIXEL_TO_NM, alt)]

/-- Method `RouteOptimizer.optimize_fixed_time` from core_optimizer.py.
`findAlt check_time radius` abstracts
`PathAdjuster.find_alternative_path(start, goal, existing, check_time, radius)`,
a grid A* that may fail (`None`).  The return value is only a waypoint list. -/
def optimize_fixed_time (segLen : Pt → Pt → ℚ) (safety_nm : ℚ)
    (findAlt : ℚ → ℚ → Option (List Pt))
    (new_ship : ShipRoute) (existing_ships : List ShipRoute) : List Pt :=
  let original_path := new_ship.path
  let test_ship := calculate_timestamps segLen new_ship
  let collision_info := existing_ships.foldl (infoStep safety_nm test_ship) []
  if collision_info = [] then original_path
  else
    let journey_duration := if test_ship.timestamps = [] then 60
      else test_ship.timestamps.getLastD 0 - test_ship.departure_time
    let check_times := (collision_info.map fun c => (c.2.1 + c.2.2) / 2) ++
      [new_ship.departure_time + journey_duration * (1/4),
       new_ship.departure_time + journey_duration * (1/2),
       new_ship.departure_time + journey_duration * (3/4)]
    let solutions : List (ℚ × List Pt) := check_times.foldl (fun sols ct =>
      avoidance_factors.foldl
        (solStep segLen safety_nm findAlt original_path test_ship existing_ships ct) sols) []
    match pickMinFirst solutions with
    | some best => best.2
    | none => original_path

/-- Coordinate-difference length oracle; equals the Euclidean pixel length
`sqrt(dx²+dy²)` on the axis-aligned, positively-directed segments of the
scenarios below. -/
def segLenT : Pt → Pt → ℚ := fun p q => (q.1 - p.1) + (q.2 - p.2)

/-- Alternative-path oracle that always fails. -/
def findAltNone : ℚ → ℚ → Option (List Pt) := fun _ _ => none

/-- New ship of the C3/C5 scenarios: a 10-pixel eastward hop at 10 knots, so
its derived timestamps are [0, 150/463] minutes. -/
def c3New : ShipRoute := ⟨"new", "n1", (0, 0), (10, 0), [(0, 0), (10, 0)], 0, 10, 0, []⟩

/-- The value of `calculate_timestamps segLenT c3New`, as a literal. -/
def c3NewTimed : ShipRoute :=
  ⟨"new", "n1", (0, 0), (10, 0), [(0, 0), (10, 0)], 0, 10, 0, [0, 150/463]⟩

/-- Committed ship on the identical path and schedule as `c3New` (its stored
timestamps are the ones `calculate_timestamps` derives), so the two ships
coincide at every instant of the overlap window. -/
def c3Existing : ShipRoute :=
  ⟨"ex", "e1", (0, 0), (10, 0), [(0, 0), (10, 0)], 0, 10, 0, [0, 150/463]⟩

/-- Committed ship departing far in the future: no window overlap with
`c3New`. -/
def c5Far : ShipRoute :=
  ⟨"far", "f1", (0, 0), (10, 0), [(0, 0), (10, 0)], 1000, 10, 0, [1000, 463150/463]⟩

/-- Ships for the C8 witness: disjoint time windows and far apart. -/
def c8A : ShipRoute := ⟨"a", "a1", (0, 0), (0, 0), [(0, 0), (0, 0)], 0, 10, 0, [0, 1]⟩

def c8B : ShipRoute := ⟨"b", "b1", (1000, 0), (1000, 0), [(1000, 0), (1000, 0)], 2, 10, 0, [2, 3]⟩

end NavP

namespace Geom

/-- Squared Euclidean distance in degree coordinates. -/
def dist2 (a b : Pt) : ℚ := (a.1 - b.1) ^ 2 + (a.2 - b.2) ^ 2

/-- Does the horizontal ray from `x` cross the polygon edge from `a` to `b`?
(standard even–odd crossing test, exact over ℚ). -/
def crossesRay (x a b : Pt) : Bool :=
  (decide (x.2 < a.2) != decide (x.2 < b.2)) &&
    decide (x.1 < a.1 + (x.2 - a.2) * (b.1 - a.1) / (b.2 - a.2))

/-- The edge list of the closed polygon ring on `vertices`. -/
def edges (vertices : List Pt) : List (Pt × Pt) := vertices.zip (vertices.rotate 1)

/-- Containment in the raw polygon of `ObstaclePolygon.__init__` (even–odd
rule; agrees with shapely `Polygon.contains` away from the boundary). -/
def rawContains (vertices : List Pt) (x : Pt) : Bool :=
  decide ((((edges vertices).countP fun e => crossesRay x e.1 e.2) % 2) = 1)

/-- The buffered polygon of `ObstaclePolygon.__init__`, following the
semantics of the external shapely `buffer` call: the metric dilation of the
raw polygon by `margin` degrees when the margin is positive (the code computes
`margin_degrees = OBSTACLE_MARGIN_NM / avg_nm_per_degree > 0`), else the raw
polygon itself. -/
def bufferedContains (vertices : List Pt) (margin : ℚ) (x : Pt) : Prop :=
  if 0 < margin then ∃ p : Pt, rawContains vertices p = true ∧ dist2 x p ≤ margin ^ 2
  else rawContains vertices x = true

/-- Square used by the C7 witness. -/
def c7Square : List Pt := [(0, 0), (4, 0), (4, 4), (0, 4)]

end Geom

namespace NavL

theorem timestampsFrom_length (dist : Pt → Pt → ℚ) (speed : ℚ) :
    ∀ (p : List Pt) (t0 : ℚ), (timestampsFrom dist speed t0 p).length = p.length := by
  intro p
  induction p with
  | nil => intro t0; rfl
  | cons a l ih =>
    intro t0
    cases l with
    | nil => rfl
    | cons b m => simpa [timestampsFrom] using ih _

theorem timestampsFrom_head (dist : Pt → Pt → ℚ) (speed : ℚ) (a : Pt) (p : List Pt) (t0 : ℚ) :
    (timestampsFrom dist speed t0 (a :: p)).head? = some t0 := by
  cases p with
  | nil => rfl
  | cons b m => rfl

theorem timestampsFrom_chain (dist : Pt → Pt → ℚ) (speed : ℚ)
    (hd : ∀ a b, 0 ≤ dist a b) (hs : 0 < speed) :
    ∀ (p : List Pt) (t0 : ℚ), (timestampsFrom dist speed t0 p).Chain' (· ≤ ·) := by
  intro p
  induction p with
  | nil => intro t0; simp [timestampsFrom]
  | cons a l ih =>
    intro t0
    cases l with
    | nil => simp [timestampsFrom]
    | cons b m =>
      rw [timestampsFrom]
      rw [List.chain'_cons']
      constructor
      · intro y hy
        rw [timestampsFrom_head] at hy
        cases hy
        have h1 : 0 ≤ dist a b / speed := div_nonneg (hd a b) (le_of_lt hs)
        linarith
      · exact ih _

/-- Claim C4: for every `ShipRoute` with a non-empty path and any speed value
(zero or negative speed is replaced by the default, so the effective speed is
positive), after `calculate_timestamps` the timestamp list has the same length
as the path, its first element is the departure time, and the sequence is
non-decreasing.  `dist` abstracts `haversine_distance`, which is non-negative. -/
theorem claim_C4 (dist : Pt → Pt → ℚ) (hd : ∀ a b, 0 ≤ dist a b)
    (r : ShipRoute) (hp : r.path ≠ []) :
    ∃ ts : List ℚ, (calculate_timestamps dist r).timestamps = some ts ∧
      ts.length = r.path.length ∧ ts.head? = some r.departure_time ∧
      ts.Chain' (· ≤ ·) := by
  unfold calculate_timestamps
  rw [if_neg hp]
  refine ⟨_, rfl, timestampsFrom_length _ _ _ _, ?_, ?_⟩
  · obtain ⟨a, p, hap⟩ := List.exists_cons_of_ne_nil hp
    rw [hap]
    exact timestampsFrom_head _ _ _ _ _
  · have hs : (0:ℚ) < if 0 < r.speed_knots then r.speed_knots else 10 := by
      split
      · assumption
      · norm_num
    exact timestampsFrom_chain _ _ hd hs _ _


theorem chain_head_le_getLast :
    ∀ (l : List ℚ) (a tl : ℚ), (a :: l).Chain' (· ≤ ·) → (a :: l).getLast? = some tl →
      a ≤ tl := by
  intro l
  induction l with
  | nil =>
    intro a tl _ h
    simp only [List.getLast?_singleton, Option.some_inj] at h
    exact le_of_eq h
  | cons b m ih =>
    intro a tl hch hlast
    rw [List.getLast?_cons_cons] at hlast
    exact le_trans (List.chain'_cons.1 hch).1 (ih b tl (List.chain'_cons.1 hch).2 hlast)

theorem findSeg_spec :
    ∀ (ts : List ℚ) (path : List Pt) (q t0 tl : ℚ),
      path.length = ts.length → ts.Chain' (· ≤ ·) →
      ts.head? = some t0 → t0 ≤ q →
      ts.getLast? = some tl → q < tl →
      ∃ i, ∃ h1 : i + 1 < ts.length, ∃ h2 : i + 1 < path.length,
        ts.get ⟨i, by omega⟩ ≤ q ∧ q < ts.get ⟨i + 1, h1⟩ ∧
        findSeg path ts q = some (interpolate_position
          (path.get ⟨i, by omega⟩).1 (path.get ⟨i, by omega⟩).2
          (path.get ⟨i + 1, h2⟩).1 (path.get ⟨i + 1, h2⟩).2
          ((q - ts.get ⟨i, by omega⟩) / (ts.get ⟨i + 1, h1⟩ - ts.get ⟨i, by omega⟩))) := by
  intro ts
  induction ts with
  | nil => intro path q t0 tl _ _ hhead _ _ _; cases hhead
  | cons t1 ts2 ih =>
    intro path q t0 tl hlen hch hhead ht0 hlast hq
    have ht1 : t0 = t1 := by
      simp only [List.head?_cons, Option.some_inj] at hhead
      exact hhead.symm
    subst ht1
    cases ts2 with
    | nil =>
      exfalso
      simp only [List.getLast?_singleton, Option.some_inj] at hlast
      subst hlast
      exact absurd hq (not_lt.2 ht0)
    | cons t2 ts3 =>
      obtain ⟨p1, path1, rfl⟩ : ∃ p1 path1, path = p1 :: path1 := by
        cases path with
        | nil => simp at hlen
        | cons p1 path1 => exact ⟨p1, path1, rfl⟩
      obtain ⟨p2, path2, rfl⟩ : ∃ p2 path2, path1 = p2 :: path2 := by
        cases path1 with
        | nil => simp at hlen
        | cons p2 path2 => exact ⟨p2, path2, rfl⟩
      by_cases hq2 : q < t2
      · -- bracketing segment found at the head
        have hne : t2 - t0 ≠ 0 := sub_ne_zero.2 (ne_of_gt (lt_of_le_of_lt ht0 hq2))
        refine ⟨0, by simp, by simp, ?_, ?_, ?_⟩
        · simpa using ht0
        · simpa using hq2
        · simp only [findSeg, if_pos (And.intro ht0 hq2), if_neg hne]
          rfl
      · -- move to the tail
        have ht2 : t2 ≤ q := not_lt.1 hq2
        have hlast2 : (t2 :: ts3).getLast? = some tl := by
          rwa [List.getLast?_cons_cons] at hlast
        obtain ⟨i, h1, h2, hle, hlt, heq⟩ :=
          ih (p2 :: path2) q t2 tl (by simpa using hlen) hch.tail rfl ht2 hlast2 hq
        have hstep : findSeg (p1 :: p2 :: path2) (t0 :: t2 :: ts3) q =
            findSeg (p2 :: path2) (t2 :: ts3) q := by
          have hno : ¬ (t0 ≤ q ∧ q < t2) := by
            intro hc
            exact hq2 hc.2
          simp only [findSeg, if_neg hno]
        refine ⟨i + 1, by simpa using Nat.succ_lt_succ h1, by simpa using Nat.succ_lt_succ h2,
          ?_, ?_, ?_⟩
        · simpa using hle
        · simpa using hlt
        · rw [hstep, heq]
          rfl

/-- Claim C6: for a route whose timestamps were derived by
`calculate_timestamps`, `get_position_at_time` returns `none` strictly before
the departure time, the last waypoint at or after the final timestamp, and in
between the linear interpolation on the active segment proportional to elapsed
time over the segment duration.  `dist` abstracts the non-negative
`haversine_distance`. -/
theorem claim_C6 (dist : Pt → Pt → ℚ) (hd : ∀ a b, 0 ≤ dist a b)
    (r0 : ShipRoute) (hp : r0.path ≠ []) (ts : List ℚ)
    (hts : (calculate_timestamps dist r0).timestamps = some ts) (q : ℚ) :
    (q < r0.departure_time → get_position_at_time (calculate_timestamps dist r0) q = none) ∧
    (ts.getLastD 0 ≤ q →
      get_position_at_time (calculate_timestamps dist r0) q = some (r0.path.getLastD (0, 0))) ∧
    (r0.departure_time ≤ q → q < ts.getLastD 0 →
      ∃ i, ∃ h1 : i + 1 < ts.length, ∃ h2 : i + 1 < r0.path.length,
        ts.get ⟨i, by omega⟩ ≤ q ∧ q < ts.get ⟨i + 1, h1⟩ ∧
        get_position_at_time (calculate_timestamps dist r0) q = some (interpolate_position
          (r0.path.get ⟨i, by omega⟩).1 (r0.path.get ⟨i, by omega⟩).2
          (r0.path.get ⟨i + 1, h2⟩).1 (r0.path.get ⟨i + 1, h2⟩).2
          ((q - ts.get ⟨i, by omega⟩) / (ts.get ⟨i + 1, h1⟩ - ts.get ⟨i, by omega⟩)))) := by
  obtain ⟨ts0, hts0, hlen, hhead, hch⟩ := claim_C4 dist hd r0 hp
  have hts1 : ts0 = ts := by
    rw [hts0] at hts
    exact Option.some_inj.1 hts
  rw [hts1] at hts0 hlen hhead hch
  have hrpath : (calculate_timestamps dist r0).path = r0.path := by
    unfold calculate_timestamps
    split
    · rfl
    · rfl
  have hrdep : (calculate_timestamps dist r0).departure_time = r0.departure_time := by
    unfold calculate_timestamps
    split
    · rfl
    · rfl
  obtain ⟨u0, us, rfl⟩ : ∃ u0 us, ts = u0 :: us := by
    cases ts with
    | nil =>
      exfalso
      simp only [List.length_nil] at hlen
      exact hp (List.length_eq_zero.1 hlen.symm)
    | cons u0 us => exact ⟨u0, us, rfl⟩
  have hu0 : u0 = r0.departure_time := by
    simp only [List.head?_cons, Option.some_inj] at hhead
    exact hhead
  have hlast : (u0 :: us).getLast? = some ((u0 :: us).getLastD 0) := by
    rw [List.getLastD_eq_getLast?]
    cases h : (u0 :: us).getLast? with
    | none => simp at h
    | some x => rfl
  refine ⟨?_, ?_, ?_⟩
  · intro hq
    unfold get_position_at_time
    rw [hts]
    simp only [hrdep]
    rw [if_pos hq]
  · intro hq
    have hdep_le : r0.departure_time ≤ (u0 :: us).getLastD 0 := by
      rw [← hu0]
      rw [List.getLastD_eq_getLast?]
      cases h : (u0 :: us).getLast? with
      | none => simp at h
      | some x =>
        simpa using chain_head_le_getLast us u0 x hch h
    unfold get_position_at_time
    rw [hts]
    simp only [hrdep]
    rw [if_neg (not_lt.2 (le_trans hdep_le hq)), if_pos hq, hrpath]
  · intro hq1 hq2
    obtain ⟨i, h1, h2, hle, hlt, heq⟩ :=
      findSeg_spec (u0 :: us) r0.path q r0.departure_time ((u0 :: us).getLastD 0)
        hlen.symm hch (by rw [hu0]; rfl) hq1 hlast hq2
    refine ⟨i, h1, h2, hle, hlt, ?_⟩
    unfold get_position_at_time
    rw [hts]
    simp only [hrdep]
    rw [if_neg (not_lt.2 hq1), if_neg (not_le.2 hq2), hrpath, heq]


theorem claim_C6_witness :
    (3 < c6Route.departure_time →
      get_position_at_time (calculate_timestamps unitDist c6Route) 3 = none) ∧
    (([0, 6] : List ℚ).getLastD 0 ≤ 3 →
      get_position_at_time (calculate_timestamps unitDist c6Route) 3 =
        some (c6Route.path.getLastD (0, 0))) ∧
    (c6Route.departure_time ≤ 3 → (3:ℚ) < ([0, 6] : List ℚ).getLastD 0 →
      ∃ i, ∃ h1 : i + 1 < ([0, 6] : List ℚ).length, ∃ h2 : i + 1 < c6Route.path.length,
        ([0, 6] : List ℚ).get ⟨i, by omega⟩ ≤ 3 ∧ (3:ℚ) < ([0, 6] : List ℚ).get ⟨i + 1, h1⟩ ∧
        get_position_at_time (calculate_timestamps unitDist c6Route) 3 =
          some (interpolate_position
            (c6Route.path.get ⟨i, by omega⟩).1 (c6Route.path.get ⟨i, by omega⟩).2
            (c6Route.path.get ⟨i + 1, h2⟩).1 (c6Route.path.get ⟨i + 1, h2⟩).2
            ((3 - ([0, 6] : List ℚ).get ⟨i, by omega⟩) /
              (([0, 6] : List ℚ).get ⟨i + 1, h1⟩ - ([0, 6] : List ℚ).get ⟨i, by omega⟩)))) :=
  claim_C6 unitDist (fun _ _ => zero_le_one) c6Route (by decide) [0, 6]
    (by
      unfold calculate_timestamps
      rw [if_neg (by decide : ¬ (c6Route.path = []))]
      norm_num [c6Route, timestampsFrom, unitDist]) 3

theorem claim_C4_witness :
    c4Route.path ≠ [] ∧
    ∃ ts : List ℚ, (calculate_timestamps unitDist c4Route).timestamps = some ts ∧
      ts.length = c4Route.path.length ∧ ts.head? = some c4Route.departure_time ∧
      ts.Chain' (· ≤ ·) :=
  ⟨by decide, claim_C4 unitDist (fun _ _ => zero_le_one) c4Route (by decide)⟩

end NavL

namespace Geom

/-- Claim C7: for every `ObstaclePolygon` vertex list, every point contained
in the raw polygon is also contained in the buffered polygon, whatever the
buffer margin (the code always computes a positive margin; for a non-positive
margin the buffered polygon IS the raw polygon, so the superset property
holds unconditionally). -/
theorem claim_C7 (vertices : List Pt) (margin : ℚ) (x : Pt)
    (h : rawContains vertices x = true) : bufferedContains vertices margin x := by
  unfold bufferedContains
  split
  · refine ⟨x, h, ?_⟩
    have hx : dist2 x x = 0 := by simp [dist2]
    rw [hx]
    positivity
  · exact h

theorem c7_inside : rawContains c7Square (2, 2) = true := by
  norm_num [rawContains, edges, crossesRay, c7Square, List.rotate, List.countP,
    List.countP.go]

theorem claim_C7_witness :
    rawContains c7Square (2, 2) = true ∧ bufferedContains c7Square 1 (2, 2) :=
  ⟨c7_inside, claim_C7 c7Square 1 (2, 2) c7_inside⟩

end Geom

namespace NavP

theorem collisionScan_nil (s1 s2 : ShipRoute) (sp cs : ℚ) :
    ∀ samples : List ℚ,
      (∀ t ∈ samples, ∀ p1 p2, get_position_at_time s1 t = some p1 →
        get_position_at_time s2 t = some p2 → sp ^ 2 ≤ dist2 p1 p2) →
      samples.foldl (collisionStep s1 s2 sp) ([], false, cs) = ([], false, cs) := by
  intro samples
  induction samples with
  | nil => intro _; rfl
  | cons t ts ih =>
    intro h
    have hstep : collisionStep s1 s2 sp ([], false, cs) t = ([], false, cs) := by
      unfold collisionStep
      cases h1 : get_position_at_time s1 t with
      | none => rfl
      | some p1 =>
        cases h2 : get_position_at_time s2 t with
        | none => rfl
        | some p2 =>
          have hd := h t (List.mem_cons_self t ts) p1 p2 h1 h2
          have hcol : decide (dist2 p1 p2 < sp ^ 2) = false :=
            decide_eq_false (not_lt.2 hd)
          simp [hcol]
    rw [List.foldl_cons, hstep]
    exact ih fun u hu p1 p2 hp1 hp2 => h u (List.mem_cons_of_mem t hu) p1 p2 hp1 hp2

/-- Claim C8: `check_collision` returns the empty interval list whenever one
route's final timestamp is at or before the other's departure (the time
windows do not overlap), and more generally whenever at every sampled time of
the overlapping window the pairwise distance is at least the safety distance
(stated as the equivalent squared comparison). -/
theorem claim_C8 (safety time_step : ℚ) (s1 s2 : ShipRoute) :
    ((s1.timestamps.getLastD 0 ≤ s2.departure_time ∨
        s2.timestamps.getLastD 0 ≤ s1.departure_time) →
      check_collision safety s1 s2 time_step = []) ∧
    ((∀ t ∈ sampleTimes (max s1.departure_time s2.departure_time)
        (min (s1.timestamps.getLastD 0) (s2.timestamps.getLastD 0)) time_step,
        ∀ p1 p2, get_position_at_time s1 t = some p1 →
          get_position_at_time s2 t = some p2 →
          safety_distance_pixels safety ^ 2 ≤ dist2 p1 p2) →
      check_collision safety s1 s2 time_step = []) := by
  constructor
  · intro hsep
    simp only [check_collision]
    by_cases hempty : s1.timestamps = [] ∨ s2.timestamps = []
    · rw [if_pos hempty]
    · rw [if_neg hempty]
      have hle : min (s1.timestamps.getLastD 0) (s2.timestamps.getLastD 0) ≤
          max s1.departure_time s2.departure_time := by
        rcases hsep with h | h
        · exact le_trans (min_le_left _ _) (le_trans h (le_max_right _ _))
        · exact le_trans (min_le_right _ _) (le_trans h (le_max_left _ _))
      rw [if_pos hle]
  · intro hsafe
    simp only [check_collision]
    by_cases hempty : s1.timestamps = [] ∨ s2.timestamps = []
    · rw [if_pos hempty]
    · rw [if_neg hempty]
      by_cases hover : min (s1.timestamps.getLastD 0) (s2.timestamps.getLastD 0) ≤
          max s1.departure_time s2.departure_time
      · rw [if_pos hover]
      · rw [if_neg hover]
        rw [collisionScan_nil s1 s2 _ 0 _ hsafe]
        simp

theorem claim_C8_witness :
    c8A.timestamps.getLastD 0 ≤ c8B.departure_time ∧
    check_collision (1/2) c8A c8B (1/2) = [] ∧
    check_collision (1/2) c8B c8A (1/2) = [] :=
  ⟨by norm_num [c8A, c8B, List.getLastD],
   (claim_C8 (1/2) (1/2) c8A c8B).1 (Or.inl (by norm_num [c8A, c8B, List.getLastD])),
   (claim_C8 (1/2) (1/2) c8B c8A).2 (by
     norm_num [sampleTimes, c8A, c8B, List.getLastD])⟩

theorem infoFold_nil_iff (safety : ℚ) (test : ShipRoute) :
    ∀ (l : List ShipRoute) (acc : List (String × ℚ × ℚ)),
      l.foldl (infoStep safety test) acc = [] ↔
        (acc = [] ∧ ∀ o ∈ l, check_collision safety test o (1/2) = []) := by
  intro l
  induction l with
  | nil =>
    intro acc
    simp
  | cons o os ih =>
    intro acc
    rw [List.foldl_cons, ih]
    unfold infoStep
    constructor
    · rintro ⟨happ, hrest⟩
      rcases List.append_eq_nil.1 happ with ⟨ha, hm⟩
      refine ⟨ha, ?_⟩
      intro o2 ho2
      rcases List.mem_cons.1 ho2 with rfl | h2
      · exact List.map_eq_nil_iff.1 hm
      · exact hrest o2 h2
    · rintro ⟨ha, hall⟩
      refine ⟨?_, fun o2 ho2 => hall o2 (List.mem_cons_of_mem _ ho2)⟩
      rw [ha, hall o (List.mem_cons_self o os)]
      rfl

/-- Claim C5: when the original path has zero collision intervals against
every committed route, `optimize_fixed_time` returns exactly the original
waypoint list. -/
theorem claim_C5 (segLen : Pt → Pt → ℚ) (safety : ℚ)
    (findAlt : ℚ → ℚ → Option (List Pt))
    (new_ship : ShipRoute) (existing_ships : List ShipRoute)
    (h : ∀ o ∈ existing_ships,
      check_collision safety (calculate_timestamps segLen new_ship) o (1/2) = []) :
    optimize_fixed_time segLen safety findAlt new_ship existing_ships = new_ship.path := by
  simp only [optimize_fixed_time]
  rw [if_pos ((infoFold_nil_iff safety _ existing_ships []).2 ⟨rfl, h⟩)]

theorem c3NewTimed_eq : calculate_timestamps segLenT c3New = c3NewTimed := by
  unfold calculate_timestamps
  rw [if_neg (by simp [c3New])]
  norm_num [c3New, c3NewTimed, timestampsFromP, segLenT, ShipRoute.speed_pixels_per_minute,
    PIXEL_TO_NM]

theorem claim_C5_witness :
    optimize_fixed_time segLenT (1/2) findAltNone c3New [c5Far] = c3New.path :=
  claim_C5 segLenT (1/2) findAltNone c3New [c5Far] (by
    intro o ho
    rw [List.mem_singleton] at ho
    subst ho
    rw [c3NewTimed_eq]
    simp only [check_collision]
    rw [if_neg (by simp [c3NewTimed, c5Far])]
    rw [if_pos (by norm_num [c3NewTimed, c5Far, List.getLastD])])

theorem foldl_fixed {α : Type} {β : Type} (f : β → α → β) (l : List α) (init : β)
    (h : ∀ b a, a ∈ l → f b a = b) : l.foldl f init = init := by
  induction l generalizing init with
  | nil => rfl
  | cons a as ih =>
    rw [List.foldl_cons, h init a (List.mem_cons_self a as)]
    exact ih init fun b a2 ha2 => h b a2 (List.mem_cons_of_mem a ha2)

theorem solStep_fixed (segLen : Pt → Pt → ℚ) (safety : ℚ)
    (findAlt : ℚ → ℚ → Option (List Pt))
    (new_ship : ShipRoute) (existing_ships : List ShipRoute)
    (halt : ∀ ct r alt, findAlt ct r = some alt → alt = new_ship.path ∨
      ∃ o ∈ existing_ships, check_collision safety
        (reroute segLen (calculate_timestamps segLen new_ship) alt) o (1/2) ≠ []) :
    ∀ (ct : ℚ) (sols2 : List (ℚ × List Pt)) (factor : ℚ),
      solStep segLen safety findAlt new_ship.path (calculate_timestamps segLen new_ship)
        existing_ships ct sols2 factor = sols2 := by
  intro ct sols2 factor
  unfold solStep
  cases hfa : findAlt ct ((1/2) * factor) with
  | none => rfl
  | some alt =>
    dsimp only
    by_cases horig : alt = new_ship.path
    · rw [if_pos horig]
    · rw [if_neg horig]
      rcases halt ct ((1/2) * factor) alt hfa with heq | ⟨o, ho, hne⟩
      · exact absurd heq horig
      · have hany : (existing_ships.any fun o2 =>
            !(check_collision safety
              (reroute segLen (calculate_timestamps segLen new_ship) alt) o2 (1/2)).isEmpty)
            = true := by
          rw [List.any_eq_true]
          refine ⟨o, ho, ?_⟩
          simp only [Bool.not_eq_true', ← Bool.not_eq_true]
          intro hemp
          exact hne (List.isEmpty_iff.1 hemp)
        rw [if_pos hany]

/-- Claim C3 (amended): in fixed-time mode, when collisions are detected and
every alternative the path adjuster produces either equals the original path
or still collides with some committed route, `optimize_fixed_time` returns
the original path unchanged.  The returned value is only this waypoint list:
no indication of the unresolved collision risk is part of the return value. -/
theorem claim_C3_amended (segLen : Pt → Pt → ℚ) (safety : ℚ)
    (findAlt : ℚ → ℚ → Option (List Pt))
    (new_ship : ShipRoute) (existing_ships : List ShipRoute)
    (hcol : ∃ o ∈ existing_ships,
      check_collision safety (calculate_timestamps segLen new_ship) o (1/2) ≠ [])
    (halt : ∀ ct r alt, findAlt ct r = some alt → alt = new_ship.path ∨
      ∃ o ∈ existing_ships, check_collision safety
        (reroute segLen (calculate_timestamps segLen new_ship) alt) o (1/2) ≠ []) :
    optimize_fixed_time segLen safety findAlt new_ship existing_ships = new_ship.path := by
  simp only [optimize_fixed_time]
  have hinfo : ¬ (existing_ships.foldl
      (infoStep safety (calculate_timestamps segLen new_ship)) [] = []) := by
    intro hnil
    obtain ⟨o, ho, hne⟩ := hcol
    exact hne (((infoFold_nil_iff safety _ existing_ships []).1 hnil).2 o ho)
  rw [if_neg hinfo]
  have hid : ∀ cts : List ℚ, cts.foldl (fun sols ct => avoidance_factors.foldl
      (solStep segLen safety findAlt new_ship.path (calculate_timestamps segLen new_ship)
        existing_ships ct) sols) [] = ([] : List (ℚ × List Pt)) := by
    intro cts
    refine foldl_fixed _ _ _ ?_
    intro sols ct _
    refine foldl_fixed _ _ _ ?_
    intro s2 f _
    exact solStep_fixed segLen safety findAlt new_ship existing_ships halt ct s2 f
  rw [hid]
  rfl

theorem c3_position_new : get_position_at_time c3NewTimed 0 = some (0, 0) := by
  simp only [get_position_at_time]
  rw [if_neg (by simp [c3NewTimed])]
  rw [if_neg (by norm_num [c3NewTimed, List.headD])]
  rw [if_neg (by norm_num [c3NewTimed, List.getLastD])]
  norm_num [c3NewTimed, findSegP]

theorem c3_position_ex : get_position_at_time c3Existing 0 = some (0, 0) := by
  simp only [get_position_at_time]
  rw [if_neg (by simp [c3Existing])]
  rw [if_neg (by norm_num [c3Existing, List.headD])]
  rw [if_neg (by norm_num [c3Existing, List.getLastD])]
  norm_num [c3Existing, findSegP]

theorem c3_samples : sampleTimes 0 (150/463) (1/2) = [0] := by
  simp only [sampleTimes]
  rw [if_neg (by norm_num)]
  norm_num [List.range_succ]

theorem c3_check : check_collision (1/2) c3NewTimed c3Existing (1/2) = [(0, 150/463)] := by
  simp only [check_collision]
  rw [if_neg (by simp [c3NewTimed, c3Existing])]
  rw [if_neg (by norm_num [c3NewTimed, c3Existing, List.getLastD])]
  have hmax : max c3NewTimed.departure_time c3Existing.departure_time = 0 := by
    norm_num [c3NewTimed, c3Existing]
  have hmin : min (c3NewTimed.timestamps.getLastD 0) (c3Existing.timestamps.getLastD 0)
      = 150/463 := by
    norm_num [c3NewTimed, c3Existing, List.getLastD]
  rw [hmax, hmin, c3_samples, List.foldl_cons, List.foldl_nil]
  unfold collisionStep
  rw [c3_position_new, c3_position_ex]
  norm_num [dist2, safety_distance_pixels, PIXEL_TO_NM]

/-- Claim C3 counterexample: with an identical committed route, the original
path has a collision interval and the always-failing path adjuster clears
nothing, yet the returned value is exactly the bare original waypoint list —
the very same value returned by a run with no committed routes at all, so the
caller cannot see the unresolved collision risk in the returned value. -/
theorem claim_C3_counterexample :
    check_collision (1/2) (calculate_timestamps segLenT c3New) c3Existing (1/2) ≠ [] ∧
    optimize_fixed_time segLenT (1/2) findAltNone c3New [c3Existing] = c3New.path ∧
    optimize_fixed_time segLenT (1/2) findAltNone c3New [] = c3New.path := by
  refine ⟨?_, ?_, ?_⟩
  · rw [c3NewTimed_eq, c3_check]
    simp
  · simp only [optimize_fixed_time]
    rw [if_neg (by
      intro hnil
      have hall := ((infoFold_nil_iff (1/2) _ [c3Existing] []).1 hnil).2
        c3Existing (List.mem_singleton.2 rfl)
      rw [c3NewTimed_eq, c3_check] at hall
      exact List.cons_ne_nil _ _ hall)]
    have hid : ∀ cts : List ℚ, cts.foldl (fun sols ct => avoidance_factors.foldl
        (solStep segLenT (1/2) findAltNone c3New.path (calculate_timestamps segLenT c3New)
          [c3Existing] ct) sols) [] = ([] : List (ℚ × List Pt)) := by
      intro cts
      refine foldl_fixed _ _ _ ?_
      intro sols ct _
      refine foldl_fixed _ _ _ ?_
      intro s2 f _
      exact solStep_fixed segLenT (1/2) findAltNone c3New [c3Existing]
        (fun _ _ _ hsome => Option.noConfusion hsome) ct s2 f
    rw [hid]
    rfl
  · simp only [optimize_fixed_time]
    rw [if_pos (by rfl)]

theorem claim_C3_amended_witness :
    optimize_fixed_time segLenT (1/2) findAltNone c3New [c3Existing] = c3New.path :=
  claim_C3_amended segLenT (1/2) findAltNone c3New [c3Existing]
    ⟨c3Existing, List.mem_singleton.2 rfl, by
      rw [c3NewTimed_eq, c3_check]
      simp⟩
    (fun _ _ _ hsome => Option.noConfusion hsome)

end NavP

namespace NavL

theorem selectStep_cases (dist : Pt → Pt → ℚ) (ns : ShipRoute) (es : List ShipRoute)
    (st : ℚ × WithTop ℕ × WithTop ℚ) (k : ℤ) :
    selectStep dist ns es st k = st ∨
      (selectStep dist ns es st k).1 = ns.departure_time + (k : ℚ) := by
  simp only [selectStep]
  split
  · right; rfl
  · left; rfl

theorem selectFold_pres (dist : Pt → Pt → ℚ) (ns : ShipRoute) (es : List ShipRoute)
    (M : ℤ) :
    ∀ (l : List ℤ) (st : ℚ × WithTop ℕ × WithTop ℚ),
      (∀ k ∈ l, 3 ≤ k ∧ k ≤ M) →
      (∃ k : ℤ, 3 ≤ k ∧ k ≤ M ∧ st.1 = ns.departure_time + (k : ℚ)) →
      ∃ k : ℤ, 3 ≤ k ∧ k ≤ M ∧
        (l.foldl (selectStep dist ns es) st).1 = ns.departure_time + (k : ℚ) := by
  intro l
  induction l with
  | nil => intro st _ hP; exact hP
  | cons a as ih =>
    intro st hb hP
    rw [List.foldl_cons]
    refine ih _ (fun k hk => hb k (List.mem_cons_of_mem a hk)) ?_
    rcases selectStep_cases dist ns es st a with heq | h1
    · rw [heq]; exact hP
    · exact ⟨a, (hb a (List.mem_cons_self a as)).1, (hb a (List.mem_cons_self a as)).2, h1⟩

theorem selectStep_top (dist : Pt → Pt → ℚ) (ns : ShipRoute) (es : List ShipRoute)
    (st : ℚ × WithTop ℕ × WithTop ℚ) (k : ℤ) (htop : st.2.1 = ⊤) :
    (selectStep dist ns es st k).1 = ns.departure_time + (k : ℚ) := by
  simp only [selectStep]
  split
  · rfl
  · rename_i hcond
    exact absurd (Or.inl (htop ▸ WithTop.coe_lt_top _)) hcond

/-- Claim C2: with a positive search window (`time_window_minutes ≥ 3`, the
default being 1440), the departure time returned by
`optimize_departure_time` exceeds the requested departure time by an offset
of between +3 and +10 minutes, for every route with a non-empty path and
every non-empty committed-route list. -/
theorem claim_C2 (dist : Pt → Pt → ℚ) (new_ship : ShipRoute)
    (existing_ships : List ShipRoute) (time_window_minutes : ℤ)
    (hp : new_ship.path ≠ []) (he : existing_ships ≠ [])
    (htw : 3 ≤ time_window_minutes) :
    ∃ k : ℤ, 3 ≤ k ∧ k ≤ 10 ∧
      optimize_departure_time dist new_ship existing_ships time_window_minutes =
        new_ship.departure_time + (k : ℚ) := by
  clear hp he
  have hM : 3 ≤ min 10 time_window_minutes := le_min (by norm_num) htw
  simp only [optimize_departure_time]
  have hn : (min 10 time_window_minutes - 3 + 1).toNat =
      (min 10 time_window_minutes - 3).toNat + 1 := by omega
  rw [hn, List.range_succ_eq_map, List.map_cons, List.foldl_cons]
  have hfirst := selectStep_top dist new_ship existing_ships
    ((new_ship.departure_time, ⊤, 0) : ℚ × WithTop ℕ × WithTop ℚ)
    (3 + ((0 : ℕ) : ℤ)) rfl
  obtain ⟨k, hk3, hkM, hkeq⟩ := selectFold_pres dist new_ship existing_ships
    (min 10 time_window_minutes)
    (((List.range (min 10 time_window_minutes - 3).toNat).map Nat.succ).map
      fun (k : ℕ) => 3 + (k : ℤ))
    (selectStep dist new_ship existing_ships (new_ship.departure_time, ⊤, 0)
      (3 + ((0 : ℕ) : ℤ)))
    (by
      intro k hk
      rw [List.mem_map] at hk
      obtain ⟨j, hj, rfl⟩ := hk
      rw [List.mem_map] at hj
      obtain ⟨i, hi, rfl⟩ := hj
      rw [List.mem_range] at hi
      have hi2 : (i : ℤ) < min 10 time_window_minutes - 3 := by omega
      constructor
      · push_cast
        omega
      · push_cast
        omega)
    ⟨3, le_refl 3, hM, by
      rw [hfirst]
      norm_num⟩
  exact ⟨k, hk3, le_trans hkM (min_le_left _ _), hkeq⟩

theorem selectStep_first (dist : Pt → Pt → ℚ) (ns : ShipRoute) (k : ℤ) :
    selectStep dist ns [] ((ns.departure_time, ⊤, 0) : ℚ × WithTop ℕ × WithTop ℚ) k =
      (ns.departure_time + (k : ℚ), ((0 : ℕ) : WithTop ℕ), (⊤ : WithTop ℚ)) := by
  simp only [selectStep, offsetConflicts, List.foldl_nil]
  split
  · rfl
  · rename_i hcond
    exact absurd (Or.inl (WithTop.coe_lt_top _)) hcond

theorem selectStep_zero (dist : Pt → Pt → ℚ) (ns : ShipRoute) (k : ℤ) :
    selectStep dist ns []
      ((ns.departure_time + 3, ((0 : ℕ) : WithTop ℕ), (⊤ : WithTop ℚ)) :
        ℚ × WithTop ℕ × WithTop ℚ) k =
      (ns.departure_time + 3, ((0 : ℕ) : WithTop ℕ), (⊤ : WithTop ℚ)) := by
  simp only [selectStep, offsetConflicts, List.foldl_nil]
  split
  · rename_i hcond
    rcases hcond with h1 | ⟨_, h2⟩
    · exact absurd h1 (lt_irrefl _)
    · exact absurd h2 (lt_irrefl _)
  · rfl

theorem selectFold_zero (dist : Pt → Pt → ℚ) (ns : ShipRoute) :
    ∀ l : List ℤ, l.foldl (selectStep dist ns [])
      ((ns.departure_time + 3, ((0 : ℕ) : WithTop ℕ), (⊤ : WithTop ℚ)) :
        ℚ × WithTop ℕ × WithTop ℚ) =
      (ns.departure_time + 3, ((0 : ℕ) : WithTop ℕ), (⊤ : WithTop ℚ)) := by
  intro l
  induction l with
  | nil => rfl
  | cons a as ih =>
    rw [List.foldl_cons, selectStep_zero]
    exact ih

/-- Claim C9: with no committed routes at all, `optimize_departure_time`
still returns the requested departure plus exactly 3 minutes — the first
candidate offset always replaces the initial state (its conflict count is
finite while the initial minimum is infinite), and later conflict-free
offsets never improve on it, so the requested time itself is never
returned. -/
theorem claim_C9 (dist : Pt → Pt → ℚ) (new_ship : ShipRoute)
    (time_window_minutes : ℤ) (hp : new_ship.path ≠ [])
    (htw : 3 ≤ time_window_minutes) :
    optimize_departure_time dist new_ship [] time_window_minutes =
      new_ship.departure_time + 3 := by
  clear hp
  simp only [optimize_departure_time]
  have hn : (min 10 time_window_minutes - 3 + 1).toNat =
      (min 10 time_window_minutes - 3).toNat + 1 := by omega
  rw [hn, List.range_succ_eq_map, List.map_cons, List.foldl_cons]
  have h0 : (3 + (((0 : ℕ) : ℤ)) : ℤ) = 3 := by norm_num
  rw [h0, selectStep_first]
  have h3 : ((3 : ℤ) : ℚ) = 3 := by norm_num
  rw [h3, selectFold_zero]

theorem claim_C2_witness :
    c2Route.path ≠ [] ∧ ([c2Existing] : List ShipRoute) ≠ [] ∧
    ∃ k : ℤ, 3 ≤ k ∧ k ≤ 10 ∧
      optimize_departure_time unitDist c2Route [c2Existing] 1440 =
        c2Route.departure_time + (k : ℚ) :=
  ⟨by decide, by simp,
    claim_C2 unitDist c2Route [c2Existing] 1440 (by decide) (by simp) (by norm_num)⟩

theorem claim_C9_witness :
    c9Route.path ≠ [] ∧
    optimize_departure_time unitDist c9Route [] 1440 = c9Route.departure_time + 3 :=
  ⟨by decide, claim_C9 unitDist c9Route 1440 (by decide) (by norm_num)⟩

end NavL

namespace NavL

theorem simplify_path_ne_nil (obstacles : List ObstaclePolygon) (path : List Pt)
    (h : path ≠ []) : simplify_path obstacles path ≠ [] := by
  simp only [simplify_path]
  split
  · exact h
  · split
    · exact List.cons_ne_nil _ _
    · split
      · exact List.cons_ne_nil _ _
      · simp

theorem simplify_path_getLast (obstacles : List ObstaclePolygon) (path : List Pt)
    (g : Pt) (h : path.getLast? = some g) :
    (simplify_path obstacles path).getLast? = some g := by
  simp only [simplify_path]
  split
  · exact h
  · split
    · rename_i heq
      rw [h] at heq
      simp at heq
    · rename_i g' heq
      rw [h] at heq
      injection heq with hg
      subst hg
      split
      · assumption
      · exact List.getLast?_concat _

theorem find_direct_ne_nil (dist : Pt → Pt → ℚ) (cc : CollisionChecker)
    (s1 s2 g1 g2 : ℚ) :
    find_direct_path_with_avoidance dist cc s1 s2 g1 g2 ≠ [] := by
  simp only [find_direct_path_with_avoidance]
  split
  · simp
  · exact simplify_path_ne_nil _ _ (by simp)

theorem find_direct_getLast (dist : Pt → Pt → ℚ) (cc : CollisionChecker)
    (s1 s2 g1 g2 : ℚ) :
    (find_direct_path_with_avoidance dist cc s1 s2 g1 g2).getLast? = some (g1, g2) := by
  simp only [find_direct_path_with_avoidance]
  split
  · rfl
  · exact simplify_path_getLast _ _ _ (by simp)

theorem toPath_ne_nil (n : Node) : n.toPath ≠ [] := by
  cases n with
  | root a b c d => simp [Node.toPath]
  | child a b c d p => simp [Node.toPath]

theorem astarLoop_found_ne_nil (dist : Pt → Pt → ℚ) (cc : CollisionChecker)
    (startP goalP : Pt) :
    ∀ (fuel : ℕ) (st : AState) (p : List Pt),
      astarLoop dist cc startP goalP fuel st = .found p → p ≠ [] := by
  intro fuel
  induction fuel with
  | zero =>
    intro st p h
    exact absurd h (by simp [astarLoop])
  | succ n ih =>
    intro st p h
    simp only [astarLoop] at h
    split at h
    · exact absurd h (by simp)
    · split at h
      · injection h with hp
        rw [← hp]
        exact toPath_ne_nil _
      · exact ih _ _ h

theorem astarPost_ne_nil (dist : Pt → Pt → ℚ) (cc : CollisionChecker)
    (s1 s2 g1 g2 : ℚ) (o : AStarOutcome)
    (ho : ∀ p, o = .found p → p ≠ []) :
    astarPost dist cc s1 s2 g1 g2 o ≠ [] := by
  cases o with
  | found p =>
    simp only [astarPost]
    exact simplify_path_ne_nil _ _ (ho p rfl)
  | exhausted best bestDist =>
    simp only [astarPost]
    split
    · exact simplify_path_ne_nil _ _ (by simp)
    · exact find_direct_ne_nil _ _ _ _ _ _

theorem find_path_astar_ne_nil (dist : Pt → Pt → ℚ) (cc : CollisionChecker)
    (s1 s2 g1 g2 : ℚ) : find_path_astar dist cc s1 s2 g1 g2 ≠ [] := by
  simp only [find_path_astar]
  exact astarPost_ne_nil _ _ _ _ _ _ _
    (fun p hp => astarLoop_found_ne_nil _ _ _ _ _ _ _ hp)

/-- Claim C10: for every pair of start and goal coordinates (whatever the
distance oracle and collision checker), `find_direct_path_with_avoidance`
returns a non-empty waypoint list whose last element is the goal, so
`find_path_astar` never returns an empty list (its Python `Optional` result
is never `None` either: every return statement yields a list), and
consequently `optimize_route` always reports `success = True` — its
"No valid path found" failure branch is unreachable. -/
theorem claim_C10 (dist : Pt → Pt → ℚ) (cc : CollisionChecker)
    (s1 s2 g1 g2 departure_time speed : ℚ) (adj : Bool) :
    find_direct_path_with_avoidance dist cc s1 s2 g1 g2 ≠ [] ∧
    (find_direct_path_with_avoidance dist cc s1 s2 g1 g2).getLast? = some (g1, g2) ∧
    find_path_astar dist cc s1 s2 g1 g2 ≠ [] ∧
    (optimize_route dist cc s1 s2 g1 g2 departure_time speed adj).success = true := by
  refine ⟨find_direct_ne_nil dist cc s1 s2 g1 g2,
    find_direct_getLast dist cc s1 s2 g1 g2,
    find_path_astar_ne_nil dist cc s1 s2 g1 g2, ?_⟩
  rw [optimize_route]
  split
  · rename_i hw
    exact absurd hw (find_path_astar_ne_nil dist cc s1 s2 g1 g2)
  · rfl

end NavL

namespace NavL

theorem astarLoop_empty (dist : Pt → Pt → ℚ) (cc : CollisionChecker) (s g : Pt)
    (fuel : ℕ) (closed : List Node) (b : Node) (bd : ℚ) :
    astarLoop dist cc s g fuel ⟨[], closed, b, bd⟩ = .exhausted b bd := by
  cases fuel with
  | zero => simp [astarLoop]
  | succ n => simp [astarLoop, popMin]

theorem cexNbrs :
    get_neighbors cexDist cexCC ((0 : ℚ), (0 : ℚ)) ((0 : ℚ), 1/40)
      (Node.root 0 0 0 (3/2)) = [] := by
  norm_num [get_neighbors, cexDist, cexCC, cexObstacle, rectObstacle, is_position_safe,
    GRID_RESOLUTION, Node.lat, Node.lng, List.filterMap_cons, List.filterMap_nil]

theorem cexAstar : ∀ fuel : ℕ, 0 < fuel →
    astarLoop cexDist cexCC ((0 : ℚ), (0 : ℚ)) ((0 : ℚ), 1/40) fuel
      ⟨[Node.root 0 0 0 (3/2)], [], Node.root 0 0 0 (3/2), 3/2⟩ =
      .exhausted (Node.root 0 0 0 (3/2)) (3/2) := by
  intro fuel hf
  cases fuel with
  | zero => omega
  | succ n =>
    rw [astarLoop]
    have h40 : |(1/40 : ℚ)| = 1/40 := abs_of_pos (by norm_num)
    norm_num [popMin, cexNbrs, cexDist, Node.lat, Node.lng, GRID_RESOLUTION,
      List.foldl_nil, h40, -Prod.mk_zero_zero]
    exact astarLoop_empty cexDist cexCC _ _ n _ _ _

theorem cexStep1 :
    directStep cexDist cexCC ((0 : ℚ), (0 : ℚ)) ((0 : ℚ), 1/40) 3
      [((0 : ℚ), (0 : ℚ))] 1 = [((0 : ℚ), (0 : ℚ))] := by
  norm_num [directStep, is_position_safe, is_path_safe, cexDist, cexCC, cexObstacle,
    rectObstacle, segBlocked, segMeetsRect, segClip, small_offsets,
    perpendicular_offsets, List.find?, List.getLastD]

theorem cexStep2 :
    directStep cexDist cexCC ((0 : ℚ), (0 : ℚ)) ((0 : ℚ), 1/40) 3
      [((0 : ℚ), (0 : ℚ))] 2 = [((0 : ℚ), (0 : ℚ))] := by
  norm_num [directStep, is_position_safe, is_path_safe, cexDist, cexCC, cexObstacle,
    rectObstacle, segBlocked, segMeetsRect, segClip, small_offsets,
    perpendicular_offsets, List.find?, List.getLastD]

theorem cexDirect :
    find_direct_path_with_avoidance cexDist cexCC 0 0 0 (1/40) =
      [((0 : ℚ), (0 : ℚ)), ((0 : ℚ), 1/40)] := by
  have hb : segBlocked cexCC.obstacles ((0 : ℚ), (0 : ℚ)) ((0 : ℚ), 1/40) = true := by
    norm_num [segBlocked, cexCC, cexObstacle, rectObstacle, segMeetsRect, segClip]
  have hnum : (min 10 (max 3 (pyInt (cexDist ((0 : ℚ), (0 : ℚ)) ((0 : ℚ), 1/40) * 2)))).toNat
      = 3 := by
    norm_num [cexDist, pyInt]
    decide
  simp only [find_direct_path_with_avoidance, hb, hnum, Bool.not_true]
  norm_num [List.range_succ, List.foldl_cons, List.foldl_nil, cexStep1, cexStep2,
    simplify_path, -Prod.mk_zero_zero]

/-- Claim C1 (counterexample): the pathfinder does NOT guarantee that every
returned segment avoids the obstacles.  With a small buffered obstacle
square enclosing the start point, A* exhausts immediately (every neighbour of
the start is inside the obstacle), the best partial distance (1.5 NM) is not
within 1 NM, and the direct-path fallback — all of whose candidate waypoints
connect back to the start lying inside the obstacle — returns the bare
`[start, goal]` segment, which crosses the obstacle's buffered polygon. -/
theorem claim_C1_counterexample :
    find_path_astar cexDist cexCC 0 0 0 (1/40) = [((0 : ℚ), (0 : ℚ)), ((0 : ℚ), 1/40)] ∧
    cexObstacle.intersects_line 0 0 0 (1/40) = true := by
  constructor
  · have hd : cexDist ((0 : ℚ), (0 : ℚ)) ((0 : ℚ), 1/40) = 3/2 := by
      norm_num [cexDist]
    simp only [find_path_astar, hd]
    rw [cexAstar 10000 (by norm_num)]
    simp only [astarPost]
    rw [if_neg (by norm_num : ¬ (3/2 : ℚ) < 1)]
    exact cexDirect
  · norm_num [cexObstacle, rectObstacle, segMeetsRect, segClip]

theorem getD_get (p : List Pt) (i : ℕ) (h : i < p.length) :
    p.getD i (0, 0) = p.get ⟨i, h⟩ := by
  rw [List.getD_eq_get]

theorem safeRun_le (obstacles : List ObstaclePolygon) (p : List Pt) (a : Pt) :
    ∀ j, safeRun obstacles p a j ≤ p.length - j := by
  have H : ∀ n j, p.length - j ≤ n → safeRun obstacles p a j ≤ p.length - j := by
    intro n
    induction n with
    | zero =>
      intro j hj
      rw [safeRun, dif_neg (by omega : ¬ j < p.length)]
      exact Nat.zero_le _
    | succ n ih =>
      intro j hj
      by_cases hlt : j < p.length
      · rw [safeRun, dif_pos hlt]
        split
        · exact Nat.zero_le _
        · have := ih (j + 1) (by omega)
          omega
      · rw [safeRun, dif_neg hlt]
        exact Nat.zero_le _
  intro j
  exact H (p.length - j) j le_rfl

theorem safeRun_last (obstacles : List ObstaclePolygon) (p : List Pt) (a : Pt) :
    ∀ j, 0 < safeRun obstacles p a j →
      segBlocked obstacles a (p.getD (j + safeRun obstacles p a j - 1) (0, 0)) = false := by
  have H : ∀ n j, p.length - j ≤ n → 0 < safeRun obstacles p a j →
      segBlocked obstacles a (p.getD (j + safeRun obstacles p a j - 1) (0, 0)) = false := by
    intro n
    induction n with
    | zero =>
      intro j hj h0
      rw [safeRun, dif_neg (by omega : ¬ j < p.length)] at h0
      exact absurd h0 (lt_irrefl 0)
    | succ n ih =>
      intro j hj h0
      by_cases hlt : j < p.length
      · by_cases hbl : segBlocked obstacles a (p.get ⟨j, hlt⟩) = true
        · rw [safeRun, dif_pos hlt, if_pos hbl] at h0
          exact absurd h0 (lt_irrefl 0)
        · have hrw : safeRun obstacles p a j = 1 + safeRun obstacles p a (j + 1) := by
            rw [safeRun, dif_pos hlt, if_neg hbl]
          by_cases hz : safeRun obstacles p a (j + 1) = 0
          · rw [hrw, hz]
            have hidx : j + (1 + 0) - 1 = j := by omega
            rw [hidx, getD_get p j hlt, Bool.not_eq_true] at *
            exact hbl
          · have h1 : 0 < safeRun obstacles p a (j + 1) := Nat.pos_of_ne_zero hz
            have hrec := ih (j + 1) (by omega) h1
            rw [hrw]
            have hidx : j + (1 + safeRun obstacles p a (j + 1)) - 1
                = j + 1 + safeRun obstacles p a (j + 1) - 1 := by omega
            rw [hidx]
            exact hrec
      · rw [safeRun, dif_neg hlt] at h0
        exact absurd h0 (lt_irrefl 0)
  intro j
  exact H (p.length - j) j le_rfl

theorem bestJ_gt (obstacles : List ObstaclePolygon) (p : List Pt) (i : ℕ) :
    i < bestJ obstacles p i := by
  unfold bestJ
  omega

theorem bestJ_le (obstacles : List ObstaclePolygon) (p : List Pt) (i : ℕ)
    (hi : i < p.length - 1) : bestJ obstacles p i ≤ p.length - 1 := by
  have := safeRun_le obstacles p (p.getD i (0, 0)) (i + 2)
  unfold bestJ
  omega

theorem bestJ_seg (obstacles : List ObstaclePolygon) (p : List Pt) (i : ℕ)
    (hi : i < p.length - 1)
    (hch : List.Chain' (fun a b => segBlocked obstacles a b = false) p) :
    segBlocked obstacles (p.getD i (0, 0)) (p.getD (bestJ obstacles p i) (0, 0)) = false := by
  by_cases hz : safeRun obstacles p (p.getD i (0, 0)) (i + 2) = 0
  · have hb : bestJ obstacles p i = i + 1 := by
      unfold bestJ
      omega
    rw [hb]
    have hci := List.chain'_iff_get.mp hch i (by omega)
    rw [getD_get p i (by omega), getD_get p (i + 1) (by omega)]
    exact hci
  · have h0 : 0 < safeRun obstacles p (p.getD i (0, 0)) (i + 2) :=
      Nat.pos_of_ne_zero hz
    have hlast := safeRun_last obstacles p (p.getD i (0, 0)) (i + 2) h0
    have hidx : i + 2 + safeRun obstacles p (p.getD i (0, 0)) (i + 2) - 1
        = bestJ obstacles p i := by
      unfold bestJ
      omega
    rw [hidx] at hlast
    exact hlast

theorem getLast_cons_ne (a : Pt) (l : List Pt) (h : l ≠ []) :
    (a :: l).getLast? = l.getLast? := by
  cases l with
  | nil => exact absurd rfl h
  | cons b t => exact List.getLast?_cons_cons

theorem simplifyAux_getLast (obstacles : List ObstaclePolygon) (p : List Pt) :
    ∀ i, i < p.length - 1 →
      (simplifyAux obstacles p i).getLast? = some (p.getD (p.length - 1) (0, 0)) := by
  have H : ∀ n i, p.length - i ≤ n → i < p.length - 1 →
      (simplifyAux obstacles p i).getLast? = some (p.getD (p.length - 1) (0, 0)) := by
    intro n
    induction n with
    | zero =>
      intro i hn hi
      omega
    | succ n ih =>
      intro i hn hi
      rw [simplifyAux, dif_pos hi]
      by_cases hb : bestJ obstacles p i < p.length - 1
      · have hrec := ih (bestJ obstacles p i)
          (by have := bestJ_gt obstacles p i; omega) hb
        have hne : simplifyAux obstacles p (bestJ obstacles p i) ≠ [] := by
          rw [simplifyAux, dif_pos hb]
          exact List.cons_ne_nil _ _
        rw [getLast_cons_ne _ _ hne]
        exact hrec
      · have hle := bestJ_le obstacles p i hi
        have heq : bestJ obstacles p i = p.length - 1 := by omega
        rw [simplifyAux, dif_neg hb, heq]
        rfl
  intro i hi
  exact H (p.length - i) i le_rfl hi

theorem simplifyAux_chain (obstacles : List ObstaclePolygon) (p : List Pt)
    (hch : List.Chain' (fun a b => segBlocked obstacles a b = false) p) :
    ∀ i, i < p.length - 1 →
      List.Chain' (fun a b => segBlocked obstacles a b = false)
        (p.getD i (0, 0) :: simplifyAux obstacles p i) := by
  have H : ∀ n i, p.length - i ≤ n → i < p.length - 1 →
      List.Chain' (fun a b => segBlocked obstacles a b = false)
        (p.getD i (0, 0) :: simplifyAux obstacles p i) := by
    intro n
    induction n with
    | zero =>
      intro i hn hi
      omega
    | succ n ih =>
      intro i hn hi
      rw [simplifyAux, dif_pos hi, List.chain'_cons]
      constructor
      · exact bestJ_seg obstacles p i hi hch
      · by_cases hb : bestJ obstacles p i < p.length - 1
        · exact ih (bestJ obstacles p i)
            (by have := bestJ_gt obstacles p i; omega) hb
        · rw [simplifyAux, dif_neg hb]
          exact List.chain'_singleton _
  intro i hi
  exact H (p.length - i) i le_rfl hi

/-- Claim C1 (amended): the part of the claim that holds of the code is that
`simplify_path` never introduces an obstacle crossing: if every consecutive
segment of the input path avoids every obstacle's buffered polygon, then so
does every consecutive segment of the simplified path (the greedy skip only
replaces sub-paths by directly checked obstacle-free segments, and the final
goal-append guard never fires because the loop always ends exactly at the
last waypoint).  The full claim is false for the fallback paths, see the
counterexample. -/
theorem claim_C1_amended (obstacles : List ObstaclePolygon) (p : List Pt)
    (hch : List.Chain' (fun a b => segBlocked obstacles a b = false) p) :
    List.Chain' (fun a b => segBlocked obstacles a b = false)
      (simplify_path obstacles p) := by
  simp only [simplify_path]
  split
  · exact hch
  · rename_i hlen
    push_neg at hlen
    have hlast : p.getLast? = some (p.getD (p.length - 1) (0, 0)) := by
      rw [List.getLast?_eq_get?, List.get?_eq_get (by omega : p.length - 1 < p.length),
        getD_get p (p.length - 1) (by omega)]
    rw [hlast]
    dsimp only
    have haux := simplifyAux_getLast obstacles p 0 (by omega)
    have hne : simplifyAux obstacles p 0 ≠ [] := by
      rw [simplifyAux, dif_pos (by omega : 0 < p.length - 1)]
      exact List.cons_ne_nil _ _
    have hhead : p.headD (0, 0) = p.getD 0 (0, 0) := by
      cases p with
      | nil => simp at hlen
      | cons a t => rfl
    have hcond : (p.headD (0, 0) :: simplifyAux obstacles p 0).getLast?
        = some (p.getD (p.length - 1) (0, 0)) := by
      rw [getLast_cons_ne _ _ hne]
      exact haux
    rw [if_pos hcond, hhead]
    exact simplifyAux_chain obstacles p hch 0 (by omega)

theorem claim_C1_amended_witness :
    List.Chain' (fun a b => segBlocked [w1Obstacle] a b = false)
      [((0 : ℚ), (0 : ℚ)), ((1 : ℚ), (0 : ℚ)), ((2 : ℚ), (0 : ℚ))] ∧
    List.Chain' (fun a b => segBlocked [w1Obstacle] a b = false)
      (simplify_path [w1Obstacle]
        [((0 : ℚ), (0 : ℚ)), ((1 : ℚ), (0 : ℚ)), ((2 : ℚ), (0 : ℚ))]) := by
  have hyp : List.Chain' (fun a b => segBlocked [w1Obstacle] a b = false)
      [((0 : ℚ), (0 : ℚ)), ((1 : ℚ), (0 : ℚ)), ((2 : ℚ), (0 : ℚ))] := by
    norm_num [List.chain'_cons, List.chain'_singleton, segBlocked, w1Obstacle,
      rectObstacle, segMeetsRect, segClip]
  exact ⟨hyp, claim_C1_amended [w1Obstacle] _ hyp⟩

end NavL

